import Mathlib

/-!
Shallow embedding of the dnsrelay DNS relay server (src/core/data.py,
src/core/server.py) and verification of its specification claims.

Python `bytes` values are modelled as `List Nat` (well-formed when every
entry is < 256).  Python operations that can raise (`IndexError`,
`ValueError` from `int('', 16)`, `OverflowError`/`AttributeError` from
`to_bytes`, `UnicodeDecodeError` from `decode('utf8')`) are modelled with
`Option`, `none` standing for a raised exception.  Python slicing and
`bytes.find`, which never raise, are modelled as total functions with
Python's clamping / negative-index / `-1` semantics.
-/

/-- A Python `bytes` value: a list of byte values. -/
abbrev Bytes := List Nat

/-- Well-formedness of a byte string: every entry is an actual byte. -/
def bytesWF (b : Bytes) : Prop := ∀ x ∈ b, x < 256

instance : DecidablePred bytesWF := fun b =>
  decidable_of_iff (∀ x ∈ b, x < 256) Iff.rfl

/-- Big-endian value of a byte string: Python `int(data.hex(), 16)` for
nonempty `data`. -/
def bytesToNat (b : Bytes) : Nat := b.foldl (fun a x => a * 256 + x) 0

/-- Python `int(data.hex(), 16)`: raises `ValueError` on empty `data`. -/
def bytesToNatQ (b : Bytes) : Option Nat :=
  if b.isEmpty then none else some (bytesToNat b)

/-- Big-endian encoding of `n` on `len` bytes: Python `n.to_bytes(len, 'big')`
when it succeeds. -/
def natToBytes : Nat → Nat → Bytes
  | 0, _ => []
  | len + 1, n => natToBytes len (n / 256) ++ [n % 256]

/-- Python `n.to_bytes(len, 'big')` for an `int` argument: raises
`OverflowError` when `n` is negative or too large. -/
def pyIntToBytes (n : Int) (len : Nat) : Option Bytes :=
  if 0 ≤ n ∧ n < ((256 ^ len : Nat) : Int) then some (natToBytes len n.toNat)
  else none

/-- A Python value passed to a constructor expecting an `int`: the server
passes `bytes` constants (`RR_type.A`, `RR_class.IN`) in some places. -/
inductive PyVal where
  | int (n : Int)
  | bytes (b : Bytes)
  deriving DecidableEq, Repr

/-- Python `v.to_bytes(len, 'big')`: `AttributeError` when `v` is a `bytes`
object, `OverflowError` when out of range. -/
def pyToBytes (v : PyVal) (len : Nat) : Option Bytes :=
  match v with
  | .int n => pyIntToBytes n len
  | .bytes _ => none

/-- Python index resolution for slice bounds: negative indices count from
the end, out-of-range bounds are clamped. -/
def pyBound (n : Nat) (i : Int) : Nat :=
  if i < 0 then (i + n).toNat else min i.toNat n

/-- Python slice `l[a:b]` (never raises). -/
def pySlice (l : Bytes) (a b : Int) : Bytes :=
  (l.take (pyBound l.length b)).drop (pyBound l.length a)

/-- Python slice `l[a:]`. -/
def pySliceFrom (l : Bytes) (a : Int) : Bytes := pySlice l a l.length

/-- Python indexing `l[i]`: negative indices count from the end,
out-of-range raises `IndexError`. -/
def pyGet (l : Bytes) (i : Int) : Option Nat :=
  let j : Int := if i < 0 then i + l.length else i
  if j < 0 then none else l[j.toNat]?

/-- Python `l.find(0)`: first index of a zero byte, `-1` when absent. -/
def pyFind0 (l : Bytes) : Int :=
  match l.findIdx? (fun x => x = 0) with
  | some k => (k : Int)
  | none => -1

section UTF8

/-- One step of UTF-8 validation: number of continuation bytes demanded by
a lead byte together with the constraint on the first continuation byte. -/
def utf8Valid : List Nat → Bool
  | [] => true
  | b :: rest =>
    if b < 0x80 then utf8Valid rest
    else if 0xC2 ≤ b ∧ b ≤ 0xDF then
      match rest with
      | c1 :: rest' => decide (0x80 ≤ c1 ∧ c1 ≤ 0xBF) && utf8Valid rest'
      | _ => false
    else if b = 0xE0 then
      match rest with
      | c1 :: c2 :: rest' =>
        decide (0xA0 ≤ c1 ∧ c1 ≤ 0xBF) && decide (0x80 ≤ c2 ∧ c2 ≤ 0xBF) &&
          utf8Valid rest'
      | _ => false
    else if (0xE1 ≤ b ∧ b ≤ 0xEC) ∨ b = 0xEE ∨ b = 0xEF then
      match rest with
      | c1 :: c2 :: rest' =>
        decide (0x80 ≤ c1 ∧ c1 ≤ 0xBF) && decide (0x80 ≤ c2 ∧ c2 ≤ 0xBF) &&
          utf8Valid rest'
      | _ => false
    else if b = 0xED then
      match rest with
      | c1 :: c2 :: rest' =>
        decide (0x80 ≤ c1 ∧ c1 ≤ 0x9F) && decide (0x80 ≤ c2 ∧ c2 ≤ 0xBF) &&
          utf8Valid rest'
      | _ => false
    else if b = 0xF0 then
      match rest with
      | c1 :: c2 :: c3 :: rest' =>
        decide (0x90 ≤ c1 ∧ c1 ≤ 0xBF) && decide (0x80 ≤ c2 ∧ c2 ≤ 0xBF) &&
          decide (0x80 ≤ c3 ∧ c3 ≤ 0xBF) && utf8Valid rest'
      | _ => false
    else if 0xF1 ≤ b ∧ b ≤ 0xF3 then
      match rest with
      | c1 :: c2 :: c3 :: rest' =>
        decide (0x80 ≤ c1 ∧ c1 ≤ 0xBF) && decide (0x80 ≤ c2 ∧ c2 ≤ 0xBF) &&
          decide (0x80 ≤ c3 ∧ c3 ≤ 0xBF) && utf8Valid rest'
      | _ => false
    else if b = 0xF4 then
      match rest with
      | c1 :: c2 :: c3 :: rest' =>
        decide (0x80 ≤ c1 ∧ c1 ≤ 0x8F) && decide (0x80 ≤ c2 ∧ c2 ≤ 0xBF) &&
          decide (0x80 ≤ c3 ∧ c3 ≤ 0xBF) && utf8Valid rest'
      | _ => false
    else false

/-- Python `b.decode('utf8')`: the decoded string is represented by its
byte sequence (UTF-8 decoding is injective, so equality of the byte
sequences coincides with equality of the decoded strings).  Raises
`UnicodeDecodeError` (`none`) on invalid input. -/
def utf8DecodeQ (b : Bytes) : Option Bytes :=
  if utf8Valid b then some b else none

end UTF8

/-! ## src/core/RR_type.py and src/core/RR_class.py constants -/

/-- `RR_type.A = b'\x00\x01'` (a host address). -/
def RRtypeA : Bytes := [0x00, 0x01]

/-- `RR_class.IN = b'\x00\x01'` (the Internet). -/
def RRclassIN : Bytes := [0x00, 0x01]

/-! ## src/core/data.py: Header -/

/-- DNS Message Header field; the Python object stores every attribute as a
`bytes` value (`ID` 2 bytes, the flag fields 1 byte each, counts 2 bytes). -/
structure Header where
  ID : Bytes
  QR : Bytes
  Opcode : Bytes
  AA : Bytes
  TC : Bytes
  RD : Bytes
  RA : Bytes
  Z : Bytes
  RCODE : Bytes
  QDCOUNT : Bytes
  ANCOUNT : Bytes
  NSCOUNT : Bytes
  ARCOUNT : Bytes
  deriving DecidableEq

namespace Header

/-- `Header.__init__(ID, QR, Opcode, AA, TC, RD, RA, RCODE, Z, QDCOUNT,
ANCOUNT, NSCOUNT, ARCOUNT)`: each int argument is stored as bytes via
`to_bytes` (which raises when out of range); `QR`, `RD`, `RA` are stored as
`b'\x00'` when the argument equals 0 and `b'\x01'` otherwise. -/
def init (ID QR Opcode AA TC RD RA RCODE Z QDCOUNT ANCOUNT NSCOUNT
    ARCOUNT : Int) : Option Header := do
  let idB ← pyIntToBytes ID 2
  let opcodeB ← pyIntToBytes Opcode 1
  let aaB ← pyIntToBytes AA 1
  let tcB ← pyIntToBytes TC 1
  let zB ← pyIntToBytes Z 1
  let rcodeB ← pyIntToBytes RCODE 1
  let qdB ← pyIntToBytes QDCOUNT 2
  let anB ← pyIntToBytes ANCOUNT 2
  let nsB ← pyIntToBytes NSCOUNT 2
  let arB ← pyIntToBytes ARCOUNT 2
  pure { ID := idB
         QR := if QR = 0 then [0x00] else [0x01]
         Opcode := opcodeB
         AA := aaB
         TC := tcB
         RD := if RD = 0 then [0x00] else [0x01]
         RA := if RA = 0 then [0x00] else [0x01]
         Z := zB
         RCODE := rcodeB
         QDCOUNT := qdB
         ANCOUNT := anB
         NSCOUNT := nsB
         ARCOUNT := arB }

/-- `Header.from_bytes(data)`: bit extraction from the two flag bytes and
big-endian decoding of `ID` and the four counts. -/
def from_bytes (data : Bytes) : Option Header := do
  let ID ← bytesToNatQ (pySlice data 0 2)
  let b2 ← pyGet data 2
  let QR := b2 >>> 7 &&& 0x01
  let Opcode := b2 >>> 3 &&& 0x0F
  let AA := b2 >>> 2 &&& 0x01
  let TC := b2 >>> 1 &&& 0x01
  let RD := b2 &&& 0x01
  let b3 ← pyGet data 3
  let RA := b3 >>> 7 &&& 0x01
  let Z := b3 >>> 4 &&& 0x07
  let RCODE := b3 &&& 0x0F
  let QDCOUNT ← bytesToNatQ (pySlice data 4 6)
  let ANCOUNT ← bytesToNatQ (pySlice data 6 8)
  let NSCOUNT ← bytesToNatQ (pySlice data 8 10)
  let ARCOUNT ← bytesToNatQ (pySlice data 10 12)
  init ID QR Opcode AA TC RD RA RCODE Z QDCOUNT ANCOUNT NSCOUNT ARCOUNT

/-- `Header.get_bytes()`: reassembles the two flag bytes with the source's
masks (note `self.Z[0] << 4 & 0x07`, which always contributes 0) and
concatenates the stored count bytes. -/
def get_bytes (h : Header) : Option Bytes := do
  let qr ← pyGet h.QR 0
  let opcode ← pyGet h.Opcode 0
  let aa ← pyGet h.AA 0
  let tc ← pyGet h.TC 0
  let rd ← pyGet h.RD 0
  let ra ← pyGet h.RA 0
  let z ← pyGet h.Z 0
  let rcode ← pyGet h.RCODE 0
  let byte2 := qr <<< 7 &&& 0x80 ||| opcode <<< 3 &&& 0x78 |||
    aa <<< 2 &&& 0x04 ||| tc <<< 1 &&& 0x02 ||| rd
  let byte3 := ra <<< 7 &&& 0x80 ||| z <<< 4 &&& 0x07 ||| rcode
  let b2 ← pyIntToBytes byte2 1
  let b3 ← pyIntToBytes byte3 1
  pure (h.ID ++ b2 ++ b3 ++ h.QDCOUNT ++ h.ANCOUNT ++ h.NSCOUNT ++ h.ARCOUNT)

end Header

/-! ## src/core/data.py: Question -/

/-- DNS Message Question field (attributes stored as raw bytes). -/
structure Question where
  QNAME : Bytes
  QTYPE : Bytes
  QCLASS : Bytes
  deriving DecidableEq

namespace Question

/-- `Question.from_bytes(data)`: `QNAME = data[:-4]`, `QTYPE = data[-4:-2]`,
`QCLASS = data[-2:]` (pure slicing, never raises). -/
def from_bytes (data : Bytes) : Question :=
  { QNAME := pySlice data 0 (-4)
    QTYPE := pySlice data (-4) (-2)
    QCLASS := pySlice data (-2) data.length }

/-- `Question.get_bytes()`. -/
def get_bytes (q : Question) : Bytes := q.QNAME ++ q.QTYPE ++ q.QCLASS

/-- The loop body of `Question.get_QNAME`: walks the length-prefixed labels
of `self.QNAME` starting at `start`; stops when the length byte is 0.  Each
label is decoded with `.decode('utf8')`.  Indexing past the end raises
`IndexError` (`none`).  The decoded dotted name is represented as the list
of decoded labels.  `fuel` bounds the recursion; each iteration advances
`start` by at least 2, so `QNAME.length + 1` iterations always suffice. -/
def getQNAMEloop (QNAME : Bytes) (fuel : Nat) (start : Nat) (length : Nat) :
    Option (List Bytes) :=
  match fuel with
  | 0 => none
  | fuel + 1 =>
    if length = 0 then some []
    else do
      let label ← utf8DecodeQ (pySlice QNAME (start + 1) (start + length + 1))
      let start' := start + length + 1
      let length' ← pyGet QNAME start'
      let rest ← getQNAMEloop QNAME fuel start' length'
      pure (label :: rest)

/-- `Question.get_QNAME()`: human readable domain name, as the list of
labels (Python joins them with `'.'`).  Note the loop walks only the raw
`self.QNAME` bytes: it has no access to the whole message and performs no
compression-pointer handling. -/
def get_QNAME (q : Question) : Option (List Bytes) := do
  let length ← pyGet q.QNAME 0
  getQNAMEloop q.QNAME (q.QNAME.length + 1) 0 length

end Question

/-! ## src/core/data.py: ResourceRecord -/

/-- DNS Message Resource Record field (attributes stored as raw bytes). -/
structure ResourceRecord where
  NAME : Bytes
  TYPE : Bytes
  CLASS : Bytes
  TTL : Bytes
  RDLENGTH : Bytes
  RDATA : Bytes
  deriving DecidableEq

namespace ResourceRecord

/-- `ResourceRecord.__init__(NAME, TYPE, CLASS, TTL, RDLENGTH, RDATA)`: the
annotation says the middle four arguments are `int`s and the body calls
`.to_bytes` on them; the server actually passes `bytes` constants for
`TYPE`/`CLASS` on the cache-hit path, so the arguments are modelled as
`PyVal` and a `bytes` argument makes `.to_bytes` raise `AttributeError`. -/
def init (NAME : Bytes) (TYPE CLASS TTL RDLENGTH : PyVal) (RDATA : Bytes) :
    Option ResourceRecord := do
  let typeB ← pyToBytes TYPE 2
  let classB ← pyToBytes CLASS 2
  let ttlB ← pyToBytes TTL 4
  let rdlB ← pyToBytes RDLENGTH 2
  pure { NAME := NAME, TYPE := typeB, CLASS := classB, TTL := ttlB,
         RDLENGTH := rdlB, RDATA := RDATA }

/-- `ResourceRecord.from_bytes(data, RDLENGTH)`: slices the record fields
from the end using `RDLENGTH`.  Note `RDATA = data[-RDLENGTH:]`, which for
`RDLENGTH = 0` is the whole of `data` (Python `data[-0:] = data`). -/
def from_bytes (data : Bytes) (RDLENGTH : Int) : Option ResourceRecord := do
  let NAME := pySlice data 0 (-(RDLENGTH + 10))
  let TYPE ← bytesToNatQ (pySlice data (-(RDLENGTH + 10)) (-(RDLENGTH + 8)))
  let CLASS ← bytesToNatQ (pySlice data (-(RDLENGTH + 8)) (-(RDLENGTH + 6)))
  let TTL ← bytesToNatQ (pySlice data (-(RDLENGTH + 6)) (-(RDLENGTH + 2)))
  let RDATA := pySlice data (-RDLENGTH) data.length
  init NAME (.int TYPE) (.int CLASS) (.int TTL) (.int RDLENGTH) RDATA

/-- `ResourceRecord.get_bytes()`. -/
def get_bytes (rr : ResourceRecord) : Bytes :=
  rr.NAME ++ rr.TYPE ++ rr.CLASS ++ rr.TTL ++ rr.RDLENGTH ++ rr.RDATA

end ResourceRecord

/-! ## src/core/data.py: Message -/

/-- DNS Message: Header plus the four sections. -/
structure Message where
  header : Header
  questions : List Question
  answers : List ResourceRecord
  authorities : List ResourceRecord
  additionals : List ResourceRecord
  deriving DecidableEq

namespace Message

/-- The boundary computation of `Message._parse_question`:
`next_start = index + message[index:].find(0) + 5` (with Python's `-1` when
no zero byte exists). -/
def questionNextStart (message : Bytes) (index : Int) : Int :=
  index + pyFind0 (pySliceFrom message index) + 5

/-- Loop of `Message._parse_question(message, start, dest, count)`: parses
`count` questions, returning them with the start index of the next
section.  Pure slicing arithmetic: this loop can never raise. -/
def parse_question (message : Bytes) (index : Int) :
    (count : Nat) → List Question × Int
  | 0 => ([], index)
  | count + 1 =>
    let next_start := questionNextStart message index
    let q := Question.from_bytes (pySlice message index next_start)
    let (rest, fin) := parse_question message next_start count
    (q :: rest, fin)

/-- The `TYPE_start` computation of `Message._parse_rr`: a 2-byte name when
the top two bits of the first byte are `11`, otherwise a scan to the first
zero byte (Python `find`, `-1` when absent). -/
def rrTypeStart (message : Bytes) (index : Int) (b : Nat) : Int :=
  if b >>> 6 &&& 0b0011 = 0b0011 then index + 2
  else index + pyFind0 (pySliceFrom message index) + 1

/-- Loop of `Message._parse_rr(message, start, dest, count)`: parses `count`
resource records.  `message[index]` can raise `IndexError` and the
`RDLENGTH` read can raise `ValueError` on an empty slice. -/
def parse_rr (message : Bytes) (index : Int) :
    (count : Nat) → Option (List ResourceRecord × Int)
  | 0 => some ([], index)
  | count + 1 => do
    let b ← pyGet message index
    let TYPE_start := rrTypeStart message index b
    let RDLENGTH ← bytesToNatQ (pySlice message (TYPE_start + 8)
      (TYPE_start + 10))
    let next_start := TYPE_start + RDLENGTH + 10
    let rr ← ResourceRecord.from_bytes (pySlice message index next_start)
      RDLENGTH
    let (rest, fin) ← parse_rr message next_start count
    pure (rr :: rest, fin)

/-- `Message.from_bytes(data)`: parses the header from `data[0:12]`, then
the four sections driven by the header counts.  (The Python code guards
each section with `if count != 0`; parsing zero entries is the identity, so
the guards are semantically transparent and are not reproduced.) -/
def from_bytes (data : Bytes) : Option Message := do
  let header ← Header.from_bytes (pySlice data 0 12)
  let questions_count ← bytesToNatQ header.QDCOUNT
  let answers_count ← bytesToNatQ header.ANCOUNT
  let authorities_count ← bytesToNatQ header.NSCOUNT
  let additionals_count ← bytesToNatQ header.ARCOUNT
  let (questions, n1) := parse_question data 12 questions_count
  let (answers, n2) ← parse_rr data n1 answers_count
  let (authorities, n3) ← parse_rr data n2 authorities_count
  let (additionals, _) ← parse_rr data n3 additionals_count
  pure { header := header, questions := questions, answers := answers,
         authorities := authorities, additionals := additionals }

/-- `Message.get_bytes()`: header bytes followed by the concatenated bytes
of every Question and RR, in section order. -/
def get_bytes (m : Message) : Option Bytes := do
  let hb ← m.header.get_bytes
  pure (hb ++ (m.questions.map Question.get_bytes).flatten ++
    (m.answers.map ResourceRecord.get_bytes).flatten ++
    (m.authorities.map ResourceRecord.get_bytes).flatten ++
    (m.additionals.map ResourceRecord.get_bytes).flatten)

end Message

/-! ## src/core/server.py: cache port and handler -/

/-- A cache key: the human-readable domain name as produced by
`Question.get_QNAME` (list of decoded labels). -/
abbrev DName := List Bytes

/-- The Cache Port as seen by the handler, restricted to the only field the
server ever uses (`'A'`): `getA` models `get(key, 'A')` and `ttl` models
`get_ttl(key)` (Redis semantics: `-1` for a persistent key). -/
structure Cache where
  getA : DName → Option Bytes
  ttl : DName → Int

/-- A write against the Cache Port. -/
inductive CacheOp where
  | put (key : DName) (value : Bytes)
  | setTTL (key : DName) (ttl : Int)
  deriving DecidableEq

/-- Everything `DNSServer._handle` makes observable: the datagrams sent to
the upstream resolver, the datagrams sent back to the client, the cache
writes, and whether an exception escaped the handler. -/
structure HandleTrace where
  sentUpstream : List Bytes
  sentClient : List Bytes
  ops : List CacheOp
  crashed : Bool
  deriving DecidableEq

/-- The learn-on-forward loop of `DNSServer._forward`: for every Answer RR
with `answer.TYPE == RR_type.A and answer.TTL != b'\x00\x00'` (note the
2-byte constant against the 4-byte `TTL` field), do
`put(Questions[0].get_QNAME(), 'A', answer.RDATA)` and
`set_ttl(..., int(answer.TTL.hex(), 16))`.  `Questions[0]` or `get_QNAME`
can raise; accumulated ops before the raise are kept.  Returns the ops and
whether an exception was raised. -/
def forwardLoop (msg : Message) : List ResourceRecord →
    List CacheOp × Bool
  | [] => ([], false)
  | answer :: rest =>
    if answer.TYPE = RRtypeA ∧ answer.TTL ≠ [0x00, 0x00] then
      match msg.questions.head? with
      | none => ([], true)
      | some q0 =>
        match q0.get_QNAME with
        | none => ([], true)
        | some name =>
          match bytesToNatQ answer.TTL with
          | none => ([], true)
          | some ttlSeconds =>
            let (ops, crashed) := forwardLoop msg rest
            (CacheOp.put name answer.RDATA :: CacheOp.setTTL name
              (ttlSeconds : Int) :: ops, crashed)
    else forwardLoop msg rest

/-- `DNSServer._forward(data)` given the raw reply datagram the upstream
returns: sends `data` upstream verbatim, parses the reply, runs the
learn-on-forward loop, and returns the reply bytes — unless parsing or the
loop raises, in which case the exception escapes and no bytes are
returned.  The first component records the datagrams sent upstream. -/
def forward (data reply : Bytes) : List Bytes × List CacheOp × Option Bytes :=
  ([data],
    match Message.from_bytes reply with
    | none => ([], none)
    | some msg =>
      let (ops, crashed) := forwardLoop msg msg.answers
      (ops, if crashed then none else some reply))

/-- The sentinel all-zero address `b'\x00\x00\x00\x00'`. -/
def sentinelAddr : Bytes := [0x00, 0x00, 0x00, 0x00]

/-- `DNSServer._handle(data, source_addr)`, with the upstream reply
datagram supplied as the `reply` parameter (used only on the forward path).
Mirrors the source: parse, take `Questions[0]` (IndexError when the list
is empty; the `question is None` guard in the source is unreachable since
the parser never stores `None`), then the A-record cache lookup keyed by
`get_QNAME` — which every branch evaluates, the log lines included, so a
raise there crashes the handler before any send. -/
def handle (cache : Cache) (reply data : Bytes) : HandleTrace :=
  match Message.from_bytes data with
  | none => ⟨[], [], [], true⟩
  | some message =>
    match message.questions.head? with
    | none => ⟨[], [], [], true⟩
    | some question =>
      if question.QTYPE = RRtypeA then
        match question.get_QNAME with
        | none => ⟨[], [], [], true⟩
        | some name =>
          match cache.getA name with
          | some rdata =>
            if rdata ≠ sentinelAddr then
              let header := { message.header with
                              RA := [0x01]
                              QDCOUNT := [0x00, 0x00]
                              ANCOUNT := [0x00, 0x01]
                              QR := [0x01] }
              let ttl : Int :=
                if cache.ttl name ≠ -1 then cache.ttl name else 0
              match ResourceRecord.init [0xC0, 0x0C] (.bytes RRtypeA)
                (.bytes RRclassIN) (.int ttl) (.int 4) rdata with
              | none => ⟨[], [], [], true⟩
              | some answer =>
                match Message.get_bytes
                    ⟨header, [], [answer], [], []⟩ with
                | none => ⟨[], [], [], true⟩
                | some response => ⟨[], [response], [], false⟩
            else
              let header := { message.header with
                              RA := [0x01]
                              QDCOUNT := [0x00, 0x00]
                              ANCOUNT := [0x00, 0x00]
                              QR := [0x01]
                              RCODE := [0x03] }
              match Message.get_bytes ⟨header, [], [], [], []⟩ with
              | none => ⟨[], [], [], true⟩
              | some response => ⟨[], [response], [], false⟩
          | none =>
            let (up, ops, result) := forward data reply
            match result with
            | none => ⟨up, [], ops, true⟩
            | some response => ⟨up, [response], ops, false⟩
      else
        match question.get_QNAME with
        | none => ⟨[], [], [], true⟩
        | some _ =>
          let (up, ops, result) := forward data reply
          match result with
          | none => ⟨up, [], ops, true⟩
          | some response => ⟨up, [response], ops, false⟩

/-! ## Spec-side definitions (used to state the claims against the code) -/

/-- The spec's name-length rule (§4.1 of the spec, quoted by claim C9):
if the top two bits of the byte at `start` are `11` the name occupies
exactly 2 bytes, otherwise it occupies `offset_of_zero_byte - start + 1`
bytes (undefined when the byte is missing or no zero byte follows).
Stated from the spec's words, to be compared with the parser. -/
def specNameLen (message : Bytes) (start : Nat) : Option Nat :=
  match message[start]? with
  | none => none
  | some b =>
    if b >>> 6 &&& 0b0011 = 0b0011 then some 2
    else
      match (message.drop start).findIdx? (fun x => x = 0) with
      | some k => some (k + 1)
      | none => none

/-- The spec's data model of a domain name on the wire (§3), stated from
the spec's words: a run of length-prefixed labels (length byte `< 64`)
either terminated by a zero byte or ending in a 2-byte compression pointer
(first byte with top two bits `11`), or solely a 2-byte pointer. -/
def specDomainNameGo : Nat → Bytes → Bool
  | _, [] => false
  | _, 0 :: rest => rest.isEmpty
  | 0, _ :: _ => false
  | fuel + 1, L :: rest =>
    if 192 ≤ L then rest.length = 1
    else if L < 64 ∧ L ≤ rest.length then specDomainNameGo fuel (rest.drop L)
    else false

def specDomainName (b : Bytes) : Bool := specDomainNameGo b.length b

/-- Well-formedness of a `Header` per the data model's field widths. -/
def Header.specWF (h : Header) : Prop :=
  h.ID.length = 2 ∧ h.QR.length = 1 ∧ h.Opcode.length = 1 ∧
  h.AA.length = 1 ∧ h.TC.length = 1 ∧ h.RD.length = 1 ∧ h.RA.length = 1 ∧
  h.Z.length = 1 ∧ h.RCODE.length = 1 ∧ h.QDCOUNT.length = 2 ∧
  h.ANCOUNT.length = 2 ∧ h.NSCOUNT.length = 2 ∧ h.ARCOUNT.length = 2 ∧
  bytesWF h.ID ∧ bytesWF h.QDCOUNT ∧ bytesWF h.ANCOUNT ∧
  bytesWF h.NSCOUNT ∧ bytesWF h.ARCOUNT ∧
  bytesToNat h.QR ≤ 1 ∧ bytesToNat h.Opcode < 16 ∧ bytesToNat h.AA ≤ 1 ∧
  bytesToNat h.TC ≤ 1 ∧ bytesToNat h.RD ≤ 1 ∧ bytesToNat h.RA ≤ 1 ∧
  bytesToNat h.Z < 8 ∧ bytesToNat h.RCODE < 16

instance : DecidablePred Header.specWF := fun h => by
  unfold Header.specWF; infer_instance

/-- Validity of a `Message` exactly as claim C1 words it: header counts
equal to the section lengths, `Z` field zero, and every name a label run
or compression pointer per the data model (with the data model's field
widths throughout). -/
def Message.claimValid (m : Message) : Prop :=
  m.header.specWF ∧ m.header.Z = [0x00] ∧
  bytesToNat m.header.QDCOUNT = m.questions.length ∧
  bytesToNat m.header.ANCOUNT = m.answers.length ∧
  bytesToNat m.header.NSCOUNT = m.authorities.length ∧
  bytesToNat m.header.ARCOUNT = m.additionals.length ∧
  (∀ q ∈ m.questions, specDomainName q.QNAME ∧ bytesWF q.QNAME ∧
    q.QTYPE.length = 2 ∧ bytesWF q.QTYPE ∧ q.QCLASS.length = 2 ∧
    bytesWF q.QCLASS) ∧
  (∀ rr ∈ m.answers ++ m.authorities ++ m.additionals,
    specDomainName rr.NAME ∧ bytesWF rr.NAME ∧
    rr.TYPE.length = 2 ∧ bytesWF rr.TYPE ∧
    rr.CLASS.length = 2 ∧ bytesWF rr.CLASS ∧
    rr.TTL.length = 4 ∧ bytesWF rr.TTL ∧
    rr.RDLENGTH.length = 2 ∧ bytesWF rr.RDLENGTH ∧
    bytesToNat rr.RDLENGTH = rr.RDATA.length ∧ bytesWF rr.RDATA)

instance : DecidablePred Message.claimValid := fun m => by
  unfold Message.claimValid; infer_instance

/-- A name the parser's zero-byte scan handles: a nonempty run of nonzero
bytes terminated by a single zero byte. -/
def scanName : Bytes → Bool
  | [] => false
  | x :: rest => if x = 0 then rest.isEmpty else scanName rest

/-- An RR name the parser handles correctly: a 2-byte pointer (first byte
`≥ 0xC0`) or a zero-terminated scan name whose first byte is below
`0xC0`. -/
def rrNameOK (b : Bytes) : Bool :=
  match b.head? with
  | none => false
  | some h => if 192 ≤ h then b.length = 2 else scanName b

/-! ## Arithmetic of the byte encodings -/

theorem bytesToNat_concat (b : Bytes) (x : Nat) :
    bytesToNat (b ++ [x]) = bytesToNat b * 256 + x := by
  simp [bytesToNat, List.foldl_append]

theorem bytesToNat_lt (b : Bytes) (hwf : bytesWF b) :
    bytesToNat b < 256 ^ b.length := by
  induction b using List.reverseRecOn with
  | nil => simp [bytesToNat]
  | append_singleton l a ih =>
    have hl : bytesToNat l < 256 ^ l.length :=
      ih (fun x hx => hwf x (by simp [hx]))
    have ha : a < 256 := hwf a (by simp)
    rw [bytesToNat_concat]
    simp only [List.length_append, List.length_singleton]
    calc bytesToNat l * 256 + a < (bytesToNat l + 1) * 256 := by omega
    _ ≤ 256 ^ l.length * 256 := by
        have : bytesToNat l + 1 ≤ 256 ^ l.length := hl
        exact Nat.mul_le_mul_right 256 this
    _ = 256 ^ (l.length + 1) := by ring

theorem natToBytes_length (len n : Nat) : (natToBytes len n).length = len := by
  induction len generalizing n with
  | zero => rfl
  | succ k ih => simp [natToBytes, ih]

theorem natToBytes_wf (len n : Nat) : bytesWF (natToBytes len n) := by
  induction len generalizing n with
  | zero => intro x hx; simp [natToBytes] at hx
  | succ k ih =>
    intro x hx
    simp only [natToBytes, List.mem_append, List.mem_singleton] at hx
    rcases hx with hx | hx
    · exact ih _ x hx
    · subst hx; exact Nat.mod_lt _ (by norm_num)

theorem natToBytes_bytesToNat (b : Bytes) (len : Nat) (hlen : b.length = len)
    (hwf : bytesWF b) : natToBytes len (bytesToNat b) = b := by
  induction b using List.reverseRecOn generalizing len with
  | nil => subst hlen; rfl
  | append_singleton l a ih =>
    subst hlen
    simp only [List.length_append, List.length_singleton]
    rw [bytesToNat_concat, natToBytes]
    have ha : a < 256 := hwf a (by simp)
    have hdiv : (bytesToNat l * 256 + a) / 256 = bytesToNat l := by omega
    have hmod : (bytesToNat l * 256 + a) % 256 = a := by omega
    rw [hdiv, hmod, ih l.length rfl (fun x hx => hwf x (by simp [hx]))]

theorem bytesToNatQ_eq (b : Bytes) (h : b ≠ []) :
    bytesToNatQ b = some (bytesToNat b) := by
  simp [bytesToNatQ, h]

theorem bytesToNat_single (x : Nat) : bytesToNat [x] = x := by
  simp [bytesToNat]

theorem bytesToNat_pair (x y : Nat) : bytesToNat [x, y] = x * 256 + y := by
  simp [bytesToNat]

/-! ## Computation rules for the Python slicing helpers -/

theorem pyBound_natCast (n k : Nat) : pyBound n (k : Int) = min k n := by
  simp [pyBound]

theorem pyBound_neg (n k : Nat) (hk : 0 < k) : pyBound n (-(k : Int)) = n - k := by
  unfold pyBound
  have h : -(k : Int) < 0 := by omega
  simp only [h, if_pos]
  omega

theorem take_min_length (l : Bytes) (k : Nat) :
    l.take (min k l.length) = l.take k := by
  rcases le_total k l.length with h | h
  · rw [min_eq_left h]
  · rw [min_eq_right h, List.take_of_length_le h,
      List.take_of_length_le (le_refl _) ]

theorem drop_min_length (l : Bytes) (k : Nat) :
    l.drop (min k l.length) = l.drop k := by
  rcases le_total k l.length with h | h
  · rw [min_eq_left h]
  · rw [min_eq_right h, List.drop_eq_nil_of_le (le_refl _),
      List.drop_eq_nil_of_le h]

theorem pySlice_nat (l : Bytes) (a b : Nat) :
    pySlice l (a : Int) (b : Int) = (l.take b).drop a := by
  unfold pySlice
  rw [pyBound_natCast, pyBound_natCast, take_min_length]
  rcases le_total a l.length with h | h
  · rw [min_eq_left h]
  · rw [min_eq_right h]
    have h1 : (l.take b).length ≤ l.length := by
      rw [List.length_take]; omega
    rw [List.drop_eq_nil_of_le h1, List.drop_eq_nil_of_le (le_trans h1 h)]

theorem pySlice_zero_neg (l : Bytes) (k : Nat) (hk : 0 < k) :
    pySlice l 0 (-(k : Int)) = l.take (l.length - k) := by
  unfold pySlice
  rw [pyBound_neg _ _ hk]
  have h0 : pyBound l.length 0 = 0 := by simp [pyBound]
  rw [h0, List.drop_zero]

theorem pySlice_neg_neg (l : Bytes) (a b : Nat) (ha : 0 < a) (hb : 0 < b) :
    pySlice l (-(a : Int)) (-(b : Int)) = (l.take (l.length - b)).drop (l.length - a) := by
  unfold pySlice
  rw [pyBound_neg _ _ ha, pyBound_neg _ _ hb]

theorem pySlice_neg_len (l : Bytes) (k : Nat) (hk : 0 < k) :
    pySlice l (-(k : Int)) l.length = l.drop (l.length - k) := by
  unfold pySlice
  rw [pyBound_neg _ _ hk, pyBound_natCast, min_self, List.take_length]

theorem pySliceFrom_nat (l : Bytes) (a : Nat) :
    pySliceFrom l (a : Int) = l.drop a := by
  unfold pySliceFrom
  rw [pySlice_nat, List.take_length]

theorem pyGet_nat (l : Bytes) (k : Nat) : pyGet l (k : Int) = l[k]? := by
  unfold pyGet
  have h1 : ¬((k : Int) < 0) := by omega
  simp [h1]

/-! ## Slicing at an offset into a concatenation -/

theorem drop_append_length (pre rest : Bytes) :
    (pre ++ rest).drop pre.length = rest := by
  simpa using @List.drop_append _ pre rest 0

theorem take_append_length (pre rest : Bytes) (k : Nat) :
    (pre ++ rest).take (pre.length + k) = pre ++ rest.take k :=
  List.take_append k

theorem pySlice_append_window (pre mid rest : Bytes) :
    pySlice (pre ++ mid ++ rest) (pre.length : Int)
      ((pre.length + mid.length : Nat) : Int) = mid := by
  rw [pySlice_nat]
  rw [List.append_assoc, take_append_length, drop_append_length]
  simp

theorem pySliceFrom_append (pre rest : Bytes) :
    pySliceFrom (pre ++ rest) (pre.length : Int) = rest := by
  rw [pySliceFrom_nat, drop_append_length]

theorem pyGet_append_head (pre rest : Bytes) (x : Nat) :
    pyGet (pre ++ x :: rest) (pre.length : Int) = some x := by
  rw [pyGet_nat, List.getElem?_append_right (le_refl _)]
  simp

/-! ## The zero-byte scan -/

theorem findIdx0_append_zero (body rest : Bytes) (hb : ∀ x ∈ body, x ≠ 0) :
    (body ++ 0 :: rest).findIdx? (fun x => x = 0) = some body.length := by
  induction body with
  | nil => simp [List.findIdx?]
  | cons y ys ih =>
    have hy : y ≠ 0 := hb y (by simp)
    have ihh := ih (fun x hx => hb x (by simp [hx]))
    rw [List.cons_append, List.findIdx?_cons]
    simp only [hy, decide_eq_true_eq, if_neg]
    rw [List.findIdx?_succ, ihh]
    simp [hy]

theorem pyFind0_append_zero (body rest : Bytes) (hb : ∀ x ∈ body, x ≠ 0) :
    pyFind0 (body ++ 0 :: rest) = (body.length : Int) := by
  unfold pyFind0
  rw [findIdx0_append_zero body rest hb]

/-- `scanName` characterisation: a nonzero-byte run plus a terminator. -/
theorem scanName_iff (b : Bytes) :
    scanName b = true ↔ ∃ body, b = body ++ [0] ∧ ∀ x ∈ body, x ≠ 0 := by
  induction b with
  | nil =>
    simp only [scanName, Bool.false_eq_true, false_iff, not_exists]
    rintro body ⟨h, -⟩
    exact absurd h.symm (List.append_ne_nil_of_right_ne_nil body (by simp))
  | cons y ys ih =>
    rw [scanName]
    by_cases hy : y = 0
    · subst hy
      simp only [if_pos rfl]
      constructor
      · intro h
        have : ys = [] := List.isEmpty_iff.mp h
        subst this
        exact ⟨[], rfl, by simp⟩
      · rintro ⟨body, heq, hbody⟩
        cases body with
        | nil => simp at heq; simp [heq]
        | cons b bs =>
          have hb : b = 0 := by
            simp only [List.cons_append, List.cons.injEq] at heq
            omega
          exact absurd hb (hbody b (by simp))
    · simp only [if_neg hy]
      rw [ih]
      constructor
      · rintro ⟨body, heq, hbody⟩
        refine ⟨y :: body, by simp [heq], ?_⟩
        intro x hx
        rcases List.mem_cons.mp hx with rfl | hx
        · exact hy
        · exact hbody x hx
      · rintro ⟨body, heq, hbody⟩
        cases body with
        | nil => simp at heq; exact absurd heq.1 hy
        | cons b bs =>
          simp only [List.cons_append] at heq
          cases heq
          exact ⟨bs, rfl, fun x hx => hbody x (by simp [hx])⟩

/-! ## Flag-byte packing and unpacking -/

set_option maxRecDepth 100000 in
set_option synthInstance.maxSize 2000 in
set_option synthInstance.maxHeartbeats 2000000 in
theorem flagByte2_spec : ∀ qr < 2, ∀ op < 16, ∀ aa < 2, ∀ tc < 2, ∀ rd < 2,
    (qr <<< 7 &&& 0x80 ||| op <<< 3 &&& 0x78 ||| aa <<< 2 &&& 0x04 |||
      tc <<< 1 &&& 0x02 ||| rd) >>> 7 &&& 0x01 = qr ∧
    (qr <<< 7 &&& 0x80 ||| op <<< 3 &&& 0x78 ||| aa <<< 2 &&& 0x04 |||
      tc <<< 1 &&& 0x02 ||| rd) >>> 3 &&& 0x0F = op ∧
    (qr <<< 7 &&& 0x80 ||| op <<< 3 &&& 0x78 ||| aa <<< 2 &&& 0x04 |||
      tc <<< 1 &&& 0x02 ||| rd) >>> 2 &&& 0x01 = aa ∧
    (qr <<< 7 &&& 0x80 ||| op <<< 3 &&& 0x78 ||| aa <<< 2 &&& 0x04 |||
      tc <<< 1 &&& 0x02 ||| rd) >>> 1 &&& 0x01 = tc ∧
    (qr <<< 7 &&& 0x80 ||| op <<< 3 &&& 0x78 ||| aa <<< 2 &&& 0x04 |||
      tc <<< 1 &&& 0x02 ||| rd) &&& 0x01 = rd ∧
    (qr <<< 7 &&& 0x80 ||| op <<< 3 &&& 0x78 ||| aa <<< 2 &&& 0x04 |||
      tc <<< 1 &&& 0x02 ||| rd) < 256 := by decide

/-- The `Z` contribution to the second flag byte vanishes: the source masks
the shifted `Z` with `0x07` instead of `0x70`. -/
theorem zShiftMasked (z : Nat) : z <<< 4 &&& 0x07 = 0 := by
  rw [Nat.shiftLeft_eq]
  have h : (0x07 : Nat) = 2 ^ 3 - 1 := by norm_num
  rw [h, Nat.and_pow_two_sub_one_eq_mod]
  omega

set_option maxRecDepth 100000 in
set_option synthInstance.maxSize 2000 in
set_option synthInstance.maxHeartbeats 2000000 in
theorem flagByte3_spec : ∀ ra < 2, ∀ rc < 16,
    (ra <<< 7 &&& 0x80 ||| rc) >>> 7 &&& 0x01 = ra ∧
    (ra <<< 7 &&& 0x80 ||| rc) >>> 4 &&& 0x07 = 0 ∧
    (ra <<< 7 &&& 0x80 ||| rc) &&& 0x0F = rc ∧
    (ra <<< 7 &&& 0x80 ||| rc) < 256 := by decide

/-! ## Header serialization and round trip -/

theorem pyGet_single (x : Nat) : pyGet [x] 0 = some x := rfl

theorem pyIntToBytes_nat (n len : Nat) (h : n < 256 ^ len) :
    pyIntToBytes (n : Int) len = some (natToBytes len n) := by
  unfold pyIntToBytes
  have h0 : (0 : Int) ≤ (n : Int) := by positivity
  have h1 : (n : Int) < ((256 ^ len : Nat) : Int) := by exact_mod_cast h
  simp only [h0, h1, and_self, if_pos, Int.toNat_natCast]

theorem natToBytes_one (v : Nat) (h : v < 256) : natToBytes 1 v = [v] := by
  simp [natToBytes, Nat.div_eq_of_lt h, Nat.mod_eq_of_lt h]

theorem pyIntToBytes_byte (v : Nat) (h : v < 256) :
    pyIntToBytes (v : Int) 1 = some [v] := by
  rw [pyIntToBytes_nat v 1 (by simpa using h), natToBytes_one v h]

/-- Explicit form of `Header.get_bytes` for a well-formed header. -/
theorem Header.get_bytes_eq (h : Header) (hwf : h.specWF) :
    h.get_bytes = some (h.ID ++
      [bytesToNat h.QR <<< 7 &&& 0x80 ||| bytesToNat h.Opcode <<< 3 &&& 0x78 |||
        bytesToNat h.AA <<< 2 &&& 0x04 ||| bytesToNat h.TC <<< 1 &&& 0x02 |||
        bytesToNat h.RD] ++
      [bytesToNat h.RA <<< 7 &&& 0x80 ||| bytesToNat h.RCODE] ++
      h.QDCOUNT ++ h.ANCOUNT ++ h.NSCOUNT ++ h.ARCOUNT) := by
  obtain ⟨hID, hQR, hOp, hAA, hTC, hRD, hRA, hZ, hRC, hQD, hAN, hNS, hAR,
    wID, wQD, wAN, wNS, wAR, vQR, vOp, vAA, vTC, vRD, vRA, vZ, vRC⟩ := hwf
  obtain ⟨qr, hqr⟩ := List.length_eq_one.mp hQR
  obtain ⟨op, hop⟩ := List.length_eq_one.mp hOp
  obtain ⟨aa, haa⟩ := List.length_eq_one.mp hAA
  obtain ⟨tc, htc⟩ := List.length_eq_one.mp hTC
  obtain ⟨rd, hrd⟩ := List.length_eq_one.mp hRD
  obtain ⟨ra, hra⟩ := List.length_eq_one.mp hRA
  obtain ⟨z, hz⟩ := List.length_eq_one.mp hZ
  obtain ⟨rc, hrc⟩ := List.length_eq_one.mp hRC
  rw [hqr] at vQR; rw [hop] at vOp; rw [haa] at vAA; rw [htc] at vTC
  rw [hrd] at vRD; rw [hra] at vRA; rw [hrc] at vRC
  rw [bytesToNat_single] at vQR vOp vAA vTC vRD vRA vRC
  have hby2 := flagByte2_spec qr (by omega) op vOp aa (by omega) tc (by omega)
    rd (by omega)
  have hby3 := flagByte3_spec ra (by omega) rc vRC
  unfold Header.get_bytes
  rw [hqr, hop, haa, htc, hrd, hra, hz, hrc]
  simp only [pyGet_single, Option.bind_eq_bind, Option.some_bind,
    bytesToNat_single]
  rw [zShiftMasked z, Nat.or_zero]
  rw [pyIntToBytes_byte _ hby2.2.2.2.2.2, pyIntToBytes_byte _ hby3.2.2.2]
  simp

theorem bytesWF_pair (x y : Nat) (hx : x < 256) (hy : y < 256) :
    bytesWF [x, y] := by
  intro a ha
  simp only [List.mem_cons, List.not_mem_nil, or_false] at ha
  rcases ha with rfl | rfl <;> omega

set_option maxRecDepth 20000 in
/-- `Header.from_bytes` on an explicit 12-byte string reduces to the
`Header` constructor call on the extracted fields. -/
theorem Header.from_bytes_cons (i0 i1 B2 B3 q0 q1 a0 a1 n0 n1 r0 r1 : Nat) :
    Header.from_bytes [i0, i1, B2, B3, q0, q1, a0, a1, n0, n1, r0, r1] =
      Header.init ((bytesToNat [i0, i1] : Nat) : Int)
        ((B2 >>> 7 &&& 0x01 : Nat) : Int)
        ((B2 >>> 3 &&& 0x0F : Nat) : Int) ((B2 >>> 2 &&& 0x01 : Nat) : Int)
        ((B2 >>> 1 &&& 0x01 : Nat) : Int) ((B2 &&& 0x01 : Nat) : Int)
        ((B3 >>> 7 &&& 0x01 : Nat) : Int) ((B3 &&& 0x0F : Nat) : Int)
        ((B3 >>> 4 &&& 0x07 : Nat) : Int)
        ((bytesToNat [q0, q1] : Nat) : Int)
        ((bytesToNat [a0, a1] : Nat) : Int)
        ((bytesToNat [n0, n1] : Nat) : Int)
        ((bytesToNat [r0, r1] : Nat) : Int) := by
  unfold Header.from_bytes
  rw [show pySlice [i0, i1, B2, B3, q0, q1, a0, a1, n0, n1, r0, r1] 0 2 =
      [i0, i1] from rfl,
    show pySlice [i0, i1, B2, B3, q0, q1, a0, a1, n0, n1, r0, r1] 4 6 =
      [q0, q1] from rfl,
    show pySlice [i0, i1, B2, B3, q0, q1, a0, a1, n0, n1, r0, r1] 6 8 =
      [a0, a1] from rfl,
    show pySlice [i0, i1, B2, B3, q0, q1, a0, a1, n0, n1, r0, r1] 8 10 =
      [n0, n1] from rfl,
    show pySlice [i0, i1, B2, B3, q0, q1, a0, a1, n0, n1, r0, r1] 10 12 =
      [r0, r1] from rfl,
    show pyGet [i0, i1, B2, B3, q0, q1, a0, a1, n0, n1, r0, r1] 2 =
      some B2 from rfl,
    show pyGet [i0, i1, B2, B3, q0, q1, a0, a1, n0, n1, r0, r1] 3 =
      some B3 from rfl,
    show bytesToNatQ [i0, i1] = some (bytesToNat [i0, i1]) from rfl,
    show bytesToNatQ [q0, q1] = some (bytesToNat [q0, q1]) from rfl,
    show bytesToNatQ [a0, a1] = some (bytesToNat [a0, a1]) from rfl,
    show bytesToNatQ [n0, n1] = some (bytesToNat [n0, n1]) from rfl,
    show bytesToNatQ [r0, r1] = some (bytesToNat [r0, r1]) from rfl,
    Option.bind_eq_bind]
  rw [Option.some_bind]
  rw [Option.some_bind]
  rw [Option.some_bind]
  rw [Option.some_bind]
  rw [Option.some_bind]
  rw [Option.some_bind]
  rw [Option.some_bind]

/-- `Header.init` on in-range natural arguments. -/
theorem Header.init_nat (ID QR Opcode AA TC RD RA RCODE Z QDCOUNT ANCOUNT
    NSCOUNT ARCOUNT : Nat) (hID : ID < 256 ^ 2) (hOp : Opcode < 256)
    (hAA : AA < 256) (hTC : TC < 256) (hZ : Z < 256) (hRC : RCODE < 256)
    (hQD : QDCOUNT < 256 ^ 2) (hAN : ANCOUNT < 256 ^ 2)
    (hNS : NSCOUNT < 256 ^ 2) (hAR : ARCOUNT < 256 ^ 2) :
    Header.init ((ID : Nat) : Int) ((QR : Nat) : Int)
      ((Opcode : Nat) : Int) ((AA : Nat) : Int) ((TC : Nat) : Int)
      ((RD : Nat) : Int) ((RA : Nat) : Int) ((RCODE : Nat) : Int)
      ((Z : Nat) : Int) ((QDCOUNT : Nat) : Int) ((ANCOUNT : Nat) : Int)
      ((NSCOUNT : Nat) : Int) ((ARCOUNT : Nat) : Int) =
      some ⟨natToBytes 2 ID, if QR = 0 then [0x00] else [0x01],
        natToBytes 1 Opcode, natToBytes 1 AA, natToBytes 1 TC,
        if RD = 0 then [0x00] else [0x01],
        if RA = 0 then [0x00] else [0x01], natToBytes 1 Z,
        natToBytes 1 RCODE, natToBytes 2 QDCOUNT, natToBytes 2 ANCOUNT,
        natToBytes 2 NSCOUNT, natToBytes 2 ARCOUNT⟩ := by
  unfold Header.init
  rw [pyIntToBytes_nat ID 2 hID, pyIntToBytes_nat Opcode 1 (by simpa using
    hOp), pyIntToBytes_nat AA 1 (by simpa using hAA),
    pyIntToBytes_nat TC 1 (by simpa using hTC),
    pyIntToBytes_nat Z 1 (by simpa using hZ),
    pyIntToBytes_nat RCODE 1 (by simpa using hRC),
    pyIntToBytes_nat QDCOUNT 2 hQD, pyIntToBytes_nat ANCOUNT 2 hAN,
    pyIntToBytes_nat NSCOUNT 2 hNS, pyIntToBytes_nat ARCOUNT 2 hAR,
    Option.bind_eq_bind]
  rw [Option.some_bind]
  rw [Option.some_bind]
  rw [Option.some_bind]
  rw [Option.some_bind]
  rw [Option.some_bind]
  rw [Option.some_bind]
  rw [Option.some_bind]
  rw [Option.some_bind]
  rw [Option.some_bind]
  rw [Option.some_bind]
  simp only [Nat.cast_eq_zero]
  rfl

set_option maxRecDepth 100000 in
/-- Parsing back a serialized well-formed header with `Z = 0` recovers the
header. -/
theorem Header.from_bytes_get_bytes_hdr (h : Header) (hwf : h.specWF)
    (hzero : h.Z = [0x00]) :
    ∃ hb, h.get_bytes = some hb ∧ hb.length = 12 ∧ bytesWF hb ∧
      Header.from_bytes hb = some h := by
  have hexp := Header.get_bytes_eq h hwf
  obtain ⟨hID, hQR, hOp, hAA, hTC, hRD, hRA, hZ, hRC, hQD, hAN, hNS, hAR,
    wID, wQD, wAN, wNS, wAR, vQR, vOp, vAA, vTC, vRD, vRA, vZ, vRC⟩ := hwf
  obtain ⟨i0, i1, hid⟩ := List.length_eq_two.mp hID
  obtain ⟨qr, hqr⟩ := List.length_eq_one.mp hQR
  obtain ⟨op, hop⟩ := List.length_eq_one.mp hOp
  obtain ⟨aa, haa⟩ := List.length_eq_one.mp hAA
  obtain ⟨tc, htc⟩ := List.length_eq_one.mp hTC
  obtain ⟨rd, hrd⟩ := List.length_eq_one.mp hRD
  obtain ⟨ra, hra⟩ := List.length_eq_one.mp hRA
  obtain ⟨rc, hrc⟩ := List.length_eq_one.mp hRC
  obtain ⟨q0, q1, hqd⟩ := List.length_eq_two.mp hQD
  obtain ⟨a0, a1, han⟩ := List.length_eq_two.mp hAN
  obtain ⟨n0, n1, hns⟩ := List.length_eq_two.mp hNS
  obtain ⟨r0, r1, har⟩ := List.length_eq_two.mp hAR
  rw [hqr] at vQR; rw [hop] at vOp; rw [haa] at vAA; rw [htc] at vTC
  rw [hrd] at vRD; rw [hra] at vRA; rw [hrc] at vRC
  rw [bytesToNat_single] at vQR vOp vAA vTC vRD vRA vRC
  have hby2 := flagByte2_spec qr (by omega) op vOp aa (by omega) tc (by omega)
    rd (by omega)
  have hby3 := flagByte3_spec ra (by omega) rc vRC
  have wid0 : i0 < 256 := wID i0 (by simp [hid])
  have wid1 : i1 < 256 := wID i1 (by simp [hid])
  have wq0 : q0 < 256 := wQD q0 (by simp [hqd])
  have wq1 : q1 < 256 := wQD q1 (by simp [hqd])
  have wa0 : a0 < 256 := wAN a0 (by simp [han])
  have wa1 : a1 < 256 := wAN a1 (by simp [han])
  have wn0 : n0 < 256 := wNS n0 (by simp [hns])
  have wn1 : n1 < 256 := wNS n1 (by simp [hns])
  have wr0 : r0 < 256 := wAR r0 (by simp [har])
  have wr1 : r1 < 256 := wAR r1 (by simp [har])
  rw [hid, hqr, hop, haa, htc, hrd, hra, hrc, hqd, han, hns, har] at hexp
  simp only [bytesToNat_single] at hexp
  set B2 := qr <<< 7 &&& 0x80 ||| op <<< 3 &&& 0x78 ||| aa <<< 2 &&& 0x04 |||
    tc <<< 1 &&& 0x02 ||| rd with hB2
  set B3 := ra <<< 7 &&& 0x80 ||| rc with hB3
  have hflat : ([i0, i1] : Bytes) ++ [B2] ++ [B3] ++ [q0, q1] ++ [a0, a1] ++
      [n0, n1] ++ [r0, r1] =
      [i0, i1, B2, B3, q0, q1, a0, a1, n0, n1, r0, r1] := by simp
  rw [hflat] at hexp
  refine ⟨_, hexp, by simp, ?_, ?_⟩
  · intro x hx
    simp only [List.mem_cons, List.not_mem_nil, or_false] at hx
    have hb2lt := hby2.2.2.2.2.2
    have hb3lt := hby3.2.2.2
    rcases hx with rfl | rfl | rfl | rfl | rfl | rfl | rfl | rfl | rfl |
      rfl | rfl | rfl <;> omega
  · rw [Header.from_bytes_cons]
    rw [hby2.1, hby2.2.1, hby2.2.2.1, hby2.2.2.2.1, hby2.2.2.2.2.1,
      hby3.1, hby3.2.1, hby3.2.2.1]
    have hidlt := bytesToNat_lt [i0, i1] (bytesWF_pair i0 i1 wid0 wid1)
    have hqdlt := bytesToNat_lt [q0, q1] (bytesWF_pair q0 q1 wq0 wq1)
    have hanlt := bytesToNat_lt [a0, a1] (bytesWF_pair a0 a1 wa0 wa1)
    have hnslt := bytesToNat_lt [n0, n1] (bytesWF_pair n0 n1 wn0 wn1)
    have harlt := bytesToNat_lt [r0, r1] (bytesWF_pair r0 r1 wr0 wr1)
    simp only [List.length_cons, List.length_nil] at hidlt hqdlt hanlt
    simp only [List.length_cons, List.length_nil] at hnslt harlt
    rw [Header.init_nat _ _ _ _ _ _ _ _ _ _ _ _ _ (by omega) (by omega)
      (by omega) (by omega) (by omega) (by omega) (by omega) (by omega)
      (by omega) (by omega)]
    rw [natToBytes_bytesToNat [i0, i1] 2 rfl (bytesWF_pair i0 i1 wid0 wid1)]
    rw [natToBytes_bytesToNat [q0, q1] 2 rfl (bytesWF_pair q0 q1 wq0 wq1)]
    rw [natToBytes_bytesToNat [a0, a1] 2 rfl (bytesWF_pair a0 a1 wa0 wa1)]
    rw [natToBytes_bytesToNat [n0, n1] 2 rfl (bytesWF_pair n0 n1 wn0 wn1)]
    rw [natToBytes_bytesToNat [r0, r1] 2 rfl (bytesWF_pair r0 r1 wr0 wr1)]
    rw [natToBytes_one op (by omega), natToBytes_one aa (by omega),
      natToBytes_one tc (by omega), natToBytes_one 0 (by omega),
      natToBytes_one rc (by omega)]
    have hqrif : (if qr = 0 then ([0x00] : Bytes) else [0x01]) = [qr] := by
      interval_cases qr <;> simp
    have hrdif : (if rd = 0 then ([0x00] : Bytes) else [0x01]) = [rd] := by
      interval_cases rd <;> simp
    have hraif : (if ra = 0 then ([0x00] : Bytes) else [0x01]) = [ra] := by
      interval_cases ra <;> simp
    rw [hqrif, hrdif, hraif]
    have hstruct : h = ⟨[i0, i1], [qr], [op], [aa], [tc], [rd], [ra], [0x00],
        [rc], [q0, q1], [a0, a1], [n0, n1], [r0, r1]⟩ := by
      cases h
      simp_all
    rw [hstruct]


/-! ## Question serialization and parsing -/

theorem Question.from_bytes_serialized_q (q : Question)
    (ht : q.QTYPE.length = 2) (hc : q.QCLASS.length = 2) :
    Question.from_bytes (q.QNAME ++ q.QTYPE ++ q.QCLASS) = q := by
  have hlen : (q.QNAME ++ q.QTYPE ++ q.QCLASS).length =
      q.QNAME.length + 4 := by
    simp [ht, hc]
  have htake4 : (q.QNAME ++ q.QTYPE ++ q.QCLASS).take
      ((q.QNAME ++ q.QTYPE ++ q.QCLASS).length - 4) = q.QNAME := by
    rw [hlen, List.append_assoc]
    have : q.QNAME.length + 4 - 4 = q.QNAME.length + 0 := by omega
    rw [this, List.take_append, List.take_zero, List.append_nil]
  have htake2 : (q.QNAME ++ q.QTYPE ++ q.QCLASS).take
      ((q.QNAME ++ q.QTYPE ++ q.QCLASS).length - 2) = q.QNAME ++ q.QTYPE := by
    rw [hlen]
    have h1 : q.QNAME.length + 4 - 2 = (q.QNAME ++ q.QTYPE).length + 0 := by
      simp [ht]
    rw [h1, List.take_append, List.take_zero, List.append_nil]
  have hdropTail : (q.QNAME ++ q.QTYPE ++ q.QCLASS).drop
      ((q.QNAME ++ q.QTYPE ++ q.QCLASS).length - 2) = q.QCLASS := by
    rw [hlen]
    have h1 : q.QNAME.length + 4 - 2 = (q.QNAME ++ q.QTYPE).length := by
      simp [ht]
    rw [h1, drop_append_length]
  unfold Question.from_bytes
  rw [show (-4 : Int) = -((4 : Nat) : Int) from by norm_num,
    show (-2 : Int) = -((2 : Nat) : Int) from by norm_num]
  rw [pySlice_zero_neg _ 4 (by omega), htake4]
  rw [pySlice_neg_neg _ 4 2 (by omega) (by omega), htake2]
  have hd : (q.QNAME ++ q.QTYPE).drop q.QNAME.length = q.QTYPE :=
    drop_append_length _ _
  rw [show (q.QNAME ++ q.QTYPE ++ q.QCLASS).length - 4 =
    q.QNAME.length from by rw [hlen]; omega]
  rw [hd]
  rw [pySlice_neg_len _ 2 (by omega), hdropTail]


/-- Serialized bytes of a list of questions. -/
def serQuestions (qs : List Question) : Bytes :=
  (qs.map Question.get_bytes).flatten

/-- A question the parser handles: scan name plus 2-byte type and
class. -/
def Question.parseValid (q : Question) : Prop :=
  scanName q.QNAME = true ∧ q.QTYPE.length = 2 ∧ q.QCLASS.length = 2

instance : DecidablePred Question.parseValid := fun q => by
  unfold Question.parseValid; infer_instance

theorem parse_question_append (qs : List Question) (pre rest : Bytes)
    (hv : ∀ q ∈ qs, q.parseValid) :
    Message.parse_question (pre ++ serQuestions qs ++ rest)
      (pre.length : Int) qs.length =
      (qs, ((pre.length + (serQuestions qs).length : Nat) : Int)) := by
  induction qs generalizing pre with
  | nil =>
    simp [Message.parse_question, serQuestions]
  | cons q qs' ih =>
    obtain ⟨hscan, ht, hc⟩ := hv q (by simp)
    obtain ⟨body, hbody, hbz⟩ := (scanName_iff q.QNAME).mp hscan
    have hserq : Question.get_bytes q = body ++ 0 :: (q.QTYPE ++ q.QCLASS) := by
      unfold Question.get_bytes
      rw [hbody]
      simp
    have hflat : serQuestions (q :: qs') =
        Question.get_bytes q ++ serQuestions qs' := by
      simp [serQuestions]
    have hmsg : pre ++ serQuestions (q :: qs') ++ rest =
        pre ++ (body ++ 0 :: (q.QTYPE ++ q.QCLASS ++ serQuestions qs' ++
          rest)) := by
      rw [hflat, hserq]
      simp
    have hfind : pyFind0 (pySliceFrom (pre ++ serQuestions (q :: qs') ++ rest)
        (pre.length : Int)) = (body.length : Int) := by
      rw [hmsg, pySliceFrom_append]
      exact pyFind0_append_zero body _ hbz
    have hqlen : (Question.get_bytes q).length = body.length + 5 := by
      rw [hserq]
      simp [ht, hc]
    have hnext : Message.questionNextStart
        (pre ++ serQuestions (q :: qs') ++ rest) (pre.length : Int) =
        (((pre ++ Question.get_bytes q).length : Nat) : Int) := by
      unfold Message.questionNextStart
      rw [hfind]
      push_cast
      simp [hqlen]
      omega
    simp only [List.length_cons]
    rw [Message.parse_question, hnext]
    have hwindow : pySlice (pre ++ serQuestions (q :: qs') ++ rest)
        (pre.length : Int) (((pre ++ Question.get_bytes q).length : Nat) :
          Int) = Question.get_bytes q := by
      have hm2 : pre ++ serQuestions (q :: qs') ++ rest =
          pre ++ Question.get_bytes q ++ (serQuestions qs' ++ rest) := by
        rw [hflat]; simp
      rw [hm2]
      have := pySlice_append_window pre (Question.get_bytes q)
        (serQuestions qs' ++ rest)
      simpa using this
    rw [hwindow]
    have hfb : Question.from_bytes (Question.get_bytes q) = q := by
      have := Question.from_bytes_serialized_q q ht hc
      unfold Question.get_bytes at *
      exact this
    rw [hfb]
    have hm3 : pre ++ serQuestions (q :: qs') ++ rest =
        (pre ++ Question.get_bytes q) ++ serQuestions qs' ++ rest := by
      rw [hflat]; simp
    rw [hm3, ih (pre ++ Question.get_bytes q) (fun x hx => hv x (by
      simp [hx]))]
    have harith : (pre ++ Question.get_bytes q).length +
        (serQuestions qs').length =
        pre.length + (serQuestions (q :: qs')).length := by
      rw [hflat]
      simp
      omega
    rw [harith]

/-! ## Resource record serialization and parsing -/

/-- A resource record the parser reconstructs exactly: pointer or scan
name, in-range fixed-width fields, and a nonzero `RDLENGTH` matching
`RDATA` (an `RDLENGTH` of zero breaks `data[-0:]`). -/
def ResourceRecord.parseValid (rr : ResourceRecord) : Prop :=
  rrNameOK rr.NAME = true ∧ bytesWF rr.NAME ∧
  rr.TYPE.length = 2 ∧ bytesWF rr.TYPE ∧
  rr.CLASS.length = 2 ∧ bytesWF rr.CLASS ∧
  rr.TTL.length = 4 ∧ bytesWF rr.TTL ∧
  rr.RDLENGTH.length = 2 ∧ bytesWF rr.RDLENGTH ∧
  bytesToNat rr.RDLENGTH = rr.RDATA.length ∧ rr.RDATA ≠ []

instance : DecidablePred ResourceRecord.parseValid := fun rr => by
  unfold ResourceRecord.parseValid; infer_instance

/-- Serialized bytes of a list of resource records. -/
def serRRs (rrs : List ResourceRecord) : Bytes :=
  (rrs.map ResourceRecord.get_bytes).flatten

theorem take_prefix_append (A B : Bytes) : (A ++ B).take A.length = A := by
  have := @List.take_append _ A B 0
  simpa using this

theorem pyToBytes_int (n : Int) (len : Nat) :
    pyToBytes (.int n) len = pyIntToBytes n len := rfl

theorem ResourceRecord.from_bytes_serialized_rr (rr : ResourceRecord)
    (hv : rr.parseValid) :
    ResourceRecord.from_bytes rr.get_bytes ((rr.RDATA.length : Nat) : Int) =
      some rr := by
  obtain ⟨-, -, hT, wT, hC, wC, hL, wL, hR, wR, hval, hne⟩ := hv
  have hRpos : 0 < rr.RDATA.length := List.length_pos.mpr hne
  set R := rr.RDATA.length with hRdef
  set data := rr.get_bytes with hdata
  have hlen : data.length = rr.NAME.length + 10 + R := by
    simp [hdata, ResourceRecord.get_bytes, hT, hC, hL, hR]
    omega
  have hsplit1 : data = rr.NAME ++ (rr.TYPE ++ rr.CLASS ++ rr.TTL ++
      rr.RDLENGTH ++ rr.RDATA) := by
    simp [hdata, ResourceRecord.get_bytes]
  have hsplit2 : data = (rr.NAME ++ rr.TYPE) ++ (rr.CLASS ++ rr.TTL ++
      rr.RDLENGTH ++ rr.RDATA) := by
    simp [hdata, ResourceRecord.get_bytes]
  have hsplit3 : data = (rr.NAME ++ rr.TYPE ++ rr.CLASS) ++ (rr.TTL ++
      rr.RDLENGTH ++ rr.RDATA) := by
    simp [hdata, ResourceRecord.get_bytes]
  have hsplit4 : data = (rr.NAME ++ rr.TYPE ++ rr.CLASS ++ rr.TTL) ++
      (rr.RDLENGTH ++ rr.RDATA) := by
    simp [hdata, ResourceRecord.get_bytes]
  have hsplit5 : data = (rr.NAME ++ rr.TYPE ++ rr.CLASS ++ rr.TTL ++
      rr.RDLENGTH) ++ rr.RDATA := by
    simp [hdata, ResourceRecord.get_bytes]
  have htakeN : data.take (data.length - (R + 10)) = rr.NAME := by
    rw [hlen, show rr.NAME.length + 10 + R - (R + 10) =
      rr.NAME.length from by omega]
    rw [hsplit1, take_prefix_append]
  have htakeT : data.take (data.length - (R + 8)) = rr.NAME ++ rr.TYPE := by
    rw [hlen, show rr.NAME.length + 10 + R - (R + 8) =
      (rr.NAME ++ rr.TYPE).length from by simp [hT]; omega]
    rw [hsplit2, take_prefix_append]
  have htakeC : data.take (data.length - (R + 6)) =
      rr.NAME ++ rr.TYPE ++ rr.CLASS := by
    rw [hlen, show rr.NAME.length + 10 + R - (R + 6) =
      (rr.NAME ++ rr.TYPE ++ rr.CLASS).length from by simp [hT, hC]; omega]
    rw [hsplit3, take_prefix_append]
  have htakeL : data.take (data.length - (R + 2)) =
      rr.NAME ++ rr.TYPE ++ rr.CLASS ++ rr.TTL := by
    rw [hlen, show rr.NAME.length + 10 + R - (R + 2) =
      (rr.NAME ++ rr.TYPE ++ rr.CLASS ++ rr.TTL).length from by
        simp [hT, hC, hL]; omega]
    rw [hsplit4, take_prefix_append]
  have casts1 : (-((R : Int) + 10)) = -(((R + 10 : Nat) : Nat) : Int) := by
    push_cast; ring
  have casts2 : (-((R : Int) + 8)) = -(((R + 8 : Nat) : Nat) : Int) := by
    push_cast; ring
  have casts3 : (-((R : Int) + 6)) = -(((R + 6 : Nat) : Nat) : Int) := by
    push_cast; ring
  have casts4 : (-((R : Int) + 2)) = -(((R + 2 : Nat) : Nat) : Int) := by
    push_cast; ring
  unfold ResourceRecord.from_bytes
  rw [casts1, casts2, casts3, casts4]
  rw [pySlice_zero_neg _ _ (by omega), htakeN]
  rw [pySlice_neg_neg _ _ _ (by omega) (by omega), htakeT,
    show data.length - (R + 10) = rr.NAME.length from by rw [hlen]; omega,
    drop_append_length]
  rw [pySlice_neg_neg _ _ _ (by omega) (by omega), htakeC,
    show data.length - (R + 8) = (rr.NAME ++ rr.TYPE).length from by
      rw [hlen]; simp [hT]; omega,
    drop_append_length]
  rw [pySlice_neg_neg _ _ _ (by omega) (by omega), htakeL,
    show data.length - (R + 6) = (rr.NAME ++ rr.TYPE ++ rr.CLASS).length
      from by rw [hlen]; simp [hT, hC]; omega,
    drop_append_length]
  rw [pySlice_neg_len _ _ (by omega),
    show data.length - R = (rr.NAME ++ rr.TYPE ++ rr.CLASS ++ rr.TTL ++
      rr.RDLENGTH).length from by rw [hlen]; simp [hT, hC, hL, hR],
    hsplit5, drop_append_length]
  rw [bytesToNatQ_eq _ (by rw [← List.length_pos]; omega),
    bytesToNatQ_eq _ (by rw [← List.length_pos]; omega),
    bytesToNatQ_eq _ (by rw [← List.length_pos]; omega),
    Option.bind_eq_bind]
  rw [Option.some_bind]
  rw [Option.some_bind]
  rw [Option.some_bind]
  unfold ResourceRecord.init
  rw [pyToBytes_int, pyToBytes_int, pyToBytes_int, pyToBytes_int]
  have hTlt := bytesToNat_lt rr.TYPE wT
  have hClt := bytesToNat_lt rr.CLASS wC
  have hLlt := bytesToNat_lt rr.TTL wL
  rw [hT] at hTlt; rw [hC] at hClt; rw [hL] at hLlt
  have hRlt : R < 256 ^ 2 := by
    have := bytesToNat_lt rr.RDLENGTH wR
    rw [hR] at this
    omega
  rw [pyIntToBytes_nat _ 2 hTlt, pyIntToBytes_nat _ 2 hClt,
    pyIntToBytes_nat _ 4 hLlt, pyIntToBytes_nat _ 2 hRlt,
    Option.bind_eq_bind]
  rw [Option.some_bind]
  rw [Option.some_bind]
  rw [Option.some_bind]
  rw [Option.some_bind]
  rw [natToBytes_bytesToNat rr.TYPE 2 hT wT,
    natToBytes_bytesToNat rr.CLASS 2 hC wC,
    natToBytes_bytesToNat rr.TTL 4 hL wL]
  rw [show natToBytes 2 rr.RDATA.length = rr.RDLENGTH from by
    rw [← hRdef, ← hval, natToBytes_bytesToNat rr.RDLENGTH 2 hR wR]]
  rfl

set_option maxRecDepth 40000 in
/-- The parser's pointer test agrees with the top-two-bits-are-`11`
condition. -/
theorem pointerTest : ∀ b < 256, (b >>> 6 &&& 0b0011 = 0b0011 ↔ 192 ≤ b) := by
  decide

theorem parse_rr_append (rrs : List ResourceRecord) (pre rest : Bytes)
    (hv : ∀ rr ∈ rrs, rr.parseValid) :
    Message.parse_rr (pre ++ serRRs rrs ++ rest) (pre.length : Int)
      rrs.length =
      some (rrs, ((pre.length + (serRRs rrs).length : Nat) : Int)) := by
  induction rrs generalizing pre with
  | nil =>
    simp [Message.parse_rr, serRRs]
  | cons rr rrs' ih =>
    have hvr := hv rr (by simp)
    obtain ⟨hnm, wN, hT, wT, hC, wC, hL, wL, hR, wR, hval, hne⟩ := hvr
    have hflat : serRRs (rr :: rrs') =
        ResourceRecord.get_bytes rr ++ serRRs rrs' := by
      simp [serRRs]
    have hm2 : pre ++ serRRs (rr :: rrs') ++ rest =
        pre ++ ResourceRecord.get_bytes rr ++ (serRRs rrs' ++ rest) := by
      rw [hflat]; simp
    obtain ⟨nh, nt, hnamecons⟩ : ∃ nh nt, rr.NAME = nh :: nt := by
      cases hn : rr.NAME with
      | nil => rw [hn] at hnm; simp [rrNameOK] at hnm
      | cons x xs => exact ⟨x, xs, rfl⟩
    have hserrr : ResourceRecord.get_bytes rr =
        nh :: (nt ++ rr.TYPE ++ rr.CLASS ++ rr.TTL ++ rr.RDLENGTH ++
          rr.RDATA) := by
      unfold ResourceRecord.get_bytes
      rw [hnamecons]
      simp
    have hget : pyGet (pre ++ serRRs (rr :: rrs') ++ rest)
        (pre.length : Int) = some nh := by
      rw [hm2, List.append_assoc, hserrr]
      rw [show (pre ++ (nh :: (nt ++ rr.TYPE ++ rr.CLASS ++ rr.TTL ++
        rr.RDLENGTH ++ rr.RDATA) ++ (serRRs rrs' ++ rest))) =
        pre ++ nh :: ((nt ++ rr.TYPE ++ rr.CLASS ++ rr.TTL ++
        rr.RDLENGTH ++ rr.RDATA) ++ (serRRs rrs' ++ rest)) from by simp]
      exact pyGet_append_head _ _ _
    have hnh256 : nh < 256 := wN nh (by rw [hnamecons]; simp)
    have hts : Message.rrTypeStart (pre ++ serRRs (rr :: rrs') ++ rest)
        (pre.length : Int) nh =
        (((pre.length + rr.NAME.length : Nat) : Nat) : Int) := by
      unfold Message.rrTypeStart
      rw [rrNameOK, hnamecons] at hnm
      simp only [List.head?_cons] at hnm
      by_cases hptr : 192 ≤ nh
      · rw [if_pos ((pointerTest nh hnh256).mpr hptr)]
        rw [if_pos hptr] at hnm
        have hlen2 : rr.NAME.length = 2 := by
          have h1 : nt.length = 1 := by simpa using hnm
          rw [hnamecons]
          simp [h1]
        rw [hlen2]
        push_cast
        ring
      · rw [if_neg (fun hc => hptr ((pointerTest nh hnh256).mp hc))]
        rw [if_neg hptr] at hnm
        obtain ⟨body, hbody, hbz⟩ := (scanName_iff rr.NAME).mp (by
          rw [hnamecons]; exact hnm)
        have hfind : pyFind0 (pySliceFrom (pre ++ serRRs (rr :: rrs') ++
            rest) (pre.length : Int)) = (body.length : Int) := by
          rw [hm2, List.append_assoc, pySliceFrom_append]
          rw [show ResourceRecord.get_bytes rr ++ (serRRs rrs' ++ rest) =
            body ++ 0 :: (rr.TYPE ++ rr.CLASS ++ rr.TTL ++ rr.RDLENGTH ++
              rr.RDATA ++ (serRRs rrs' ++ rest)) from by
            unfold ResourceRecord.get_bytes
            rw [hbody]
            simp]
          exact pyFind0_append_zero body _ hbz
        rw [hfind]
        have hnlen : rr.NAME.length = body.length + 1 := by
          rw [hbody]; simp
        rw [hnlen]
        push_cast
        ring
    rw [List.length_cons, Message.parse_rr, hget, Option.bind_eq_bind,
      Option.some_bind, hts]
    have hpre2 : pre.length + rr.NAME.length + 8 =
        (pre ++ rr.NAME ++ rr.TYPE ++ rr.CLASS ++ rr.TTL).length := by
      simp [hT, hC, hL]
      omega
    have hwin : pySlice (pre ++ serRRs (rr :: rrs') ++ rest)
        ((((pre.length + rr.NAME.length : Nat) : Nat) : Int) + 8)
        ((((pre.length + rr.NAME.length : Nat) : Nat) : Int) + 10) =
        rr.RDLENGTH := by
      have hm3 : pre ++ serRRs (rr :: rrs') ++ rest =
          (pre ++ rr.NAME ++ rr.TYPE ++ rr.CLASS ++ rr.TTL) ++
          rr.RDLENGTH ++ (rr.RDATA ++ serRRs rrs' ++ rest) := by
        rw [hflat]
        unfold ResourceRecord.get_bytes
        simp
      rw [hm3]
      have hcast1 : (((pre.length + rr.NAME.length : Nat) : Nat) : Int) + 8 =
          (((pre ++ rr.NAME ++ rr.TYPE ++ rr.CLASS ++ rr.TTL).length :
            Nat) : Int) := by
        rw [← hpre2]; push_cast; ring
      have hcast2 : (((pre.length + rr.NAME.length : Nat) : Nat) : Int) +
          10 = (((pre ++ rr.NAME ++ rr.TYPE ++ rr.CLASS ++
            rr.TTL).length + rr.RDLENGTH.length : Nat) : Int) := by
        rw [hR, ← hpre2]; push_cast; ring
      rw [hcast1, hcast2]
      exact pySlice_append_window _ _ _
    simp only [Option.bind_eq_bind]
    rw [hwin, bytesToNatQ_eq _ (by rw [← List.length_pos]; omega),
      Option.some_bind, hval]
    have hserlen : (ResourceRecord.get_bytes rr).length =
        rr.NAME.length + 10 + rr.RDATA.length := by
      unfold ResourceRecord.get_bytes
      simp [hT, hC, hL, hR]
      omega
    have hnext : (((pre.length + rr.NAME.length : Nat) : Nat) : Int) +
        (rr.RDATA.length : Int) + 10 =
        (((pre ++ ResourceRecord.get_bytes rr).length : Nat) : Int) := by
      rw [show (pre ++ ResourceRecord.get_bytes rr).length =
        pre.length + (rr.NAME.length + 10 + rr.RDATA.length) from by
          rw [← hserlen]; simp]
      push_cast
      ring
    rw [hnext]
    have hwin2 : pySlice (pre ++ serRRs (rr :: rrs') ++ rest)
        (pre.length : Int)
        (((pre ++ ResourceRecord.get_bytes rr).length : Nat) : Int) =
        ResourceRecord.get_bytes rr := by
      rw [hm2]
      have := pySlice_append_window pre (ResourceRecord.get_bytes rr)
        (serRRs rrs' ++ rest)
      simpa using this
    rw [hwin2, ResourceRecord.from_bytes_serialized_rr rr
      ⟨hnm, wN, hT, wT, hC, wC, hL, wL, hR, wR, hval, hne⟩,
      Option.some_bind]
    have hm4 : pre ++ serRRs (rr :: rrs') ++ rest =
        (pre ++ ResourceRecord.get_bytes rr) ++ serRRs rrs' ++ rest := by
      rw [hflat]; simp
    rw [hm4, ih (pre ++ ResourceRecord.get_bytes rr) (fun x hx =>
      hv x (by simp [hx])), Option.some_bind]
    have harith : (pre ++ ResourceRecord.get_bytes rr).length +
        (serRRs rrs').length = pre.length + (serRRs (rr :: rrs')).length := by
      rw [hflat]
      simp
      omega
    rw [harith]
    rfl

/-! ## Message round trip -/

/-- Validity of a message under which the codec round-trips: well-formed
header with `Z = 0`, counts equal to section lengths, parser-compatible
names (question names as zero-terminated label runs; RR names as label
runs or bare 2-byte pointers), and nonzero `RDLENGTH` equal to the RDATA
length.  This generalises the spec's label runs: any zero-free run works. -/
def Message.parseValid (m : Message) : Prop :=
  m.header.specWF ∧ m.header.Z = [0x00] ∧
  bytesToNat m.header.QDCOUNT = m.questions.length ∧
  bytesToNat m.header.ANCOUNT = m.answers.length ∧
  bytesToNat m.header.NSCOUNT = m.authorities.length ∧
  bytesToNat m.header.ARCOUNT = m.additionals.length ∧
  (∀ q ∈ m.questions, q.parseValid) ∧
  (∀ rr ∈ m.answers ++ m.authorities ++ m.additionals, rr.parseValid)

instance : DecidablePred Message.parseValid := fun m => by
  unfold Message.parseValid; infer_instance

theorem Message.from_bytes_get_bytes (m : Message) (hv : m.parseValid) :
    ∃ bs, m.get_bytes = some bs ∧ Message.from_bytes bs = some m := by
  obtain ⟨hwf, hz, hqd, han, hns, har, hq, hrr⟩ := hv
  obtain ⟨hb, hhb, hlen12, hwfb, hparse⟩ :=
    Header.from_bytes_get_bytes_hdr m.header hwf hz
  refine ⟨hb ++ serQuestions m.questions ++ serRRs m.answers ++
    serRRs m.authorities ++ serRRs m.additionals, ?_, ?_⟩
  · unfold Message.get_bytes
    rw [hhb, Option.bind_eq_bind, Option.some_bind]
    rfl
  · set bs := hb ++ serQuestions m.questions ++ serRRs m.answers ++
      serRRs m.authorities ++ serRRs m.additionals with hbs
    have hslice12 : pySlice bs 0 12 = hb := by
      rw [show (0 : Int) = ((0 : Nat) : Int) from by norm_num,
        show (12 : Int) = ((12 : Nat) : Int) from by norm_num,
        pySlice_nat, List.drop_zero, ← hlen12, hbs]
      rw [show hb ++ serQuestions m.questions ++ serRRs m.answers ++
        serRRs m.authorities ++ serRRs m.additionals =
        hb ++ (serQuestions m.questions ++ serRRs m.answers ++
          serRRs m.authorities ++ serRRs m.additionals) from by simp]
      exact take_prefix_append _ _
    unfold Message.from_bytes
    rw [hslice12, hparse, Option.bind_eq_bind, Option.some_bind]
    have e1 : bytesToNatQ m.header.QDCOUNT = some m.questions.length := by
      rw [bytesToNatQ_eq _ (by
        have := hwf.2.2.2.2.2.2.2.2.2.1
        rw [← List.length_pos]; omega), hqd]
    have e2 : bytesToNatQ m.header.ANCOUNT = some m.answers.length := by
      rw [bytesToNatQ_eq _ (by
        have := hwf.2.2.2.2.2.2.2.2.2.2.1
        rw [← List.length_pos]; omega), han]
    have e3 : bytesToNatQ m.header.NSCOUNT = some m.authorities.length := by
      rw [bytesToNatQ_eq _ (by
        have := hwf.2.2.2.2.2.2.2.2.2.2.2.1
        rw [← List.length_pos]; omega), hns]
    have e4 : bytesToNatQ m.header.ARCOUNT = some m.additionals.length := by
      rw [bytesToNatQ_eq _ (by
        have := hwf.2.2.2.2.2.2.2.2.2.2.2.2.1
        rw [← List.length_pos]; omega), har]
    rw [e1, e2, e3, e4, Option.bind_eq_bind]
    rw [Option.some_bind]
    rw [Option.some_bind]
    rw [Option.some_bind]
    rw [Option.some_bind]
    have hq1 : Message.parse_question bs (12 : Int) m.questions.length =
        (m.questions, ((hb.length + (serQuestions m.questions).length :
          Nat) : Int)) := by
      rw [show (12 : Int) = ((hb.length : Nat) : Int) from by
        rw [hlen12]; norm_num]
      rw [show bs = hb ++ serQuestions m.questions ++ (serRRs m.answers ++
        serRRs m.authorities ++ serRRs m.additionals) from by
        rw [hbs]; simp]
      exact parse_question_append m.questions hb _ hq
    rw [hq1]
    simp only [Option.bind_eq_bind]
    have hr1 : Message.parse_rr bs
        (((hb.length + (serQuestions m.questions).length : Nat) : Int))
        m.answers.length =
        some (m.answers, (((hb ++ serQuestions m.questions).length +
          (serRRs m.answers).length : Nat) : Int)) := by
      rw [show ((hb.length + (serQuestions m.questions).length : Nat) :
        Int) = (((hb ++ serQuestions m.questions).length : Nat) : Int)
        from by push_cast; simp]
      rw [show bs = (hb ++ serQuestions m.questions) ++ serRRs m.answers ++
        (serRRs m.authorities ++ serRRs m.additionals) from by
        rw [hbs]; simp]
      exact parse_rr_append m.answers _ _ (fun rr h => hrr rr (by
        simp [h]))
    rw [hr1, Option.some_bind]
    have hr2 : Message.parse_rr bs
        ((((hb ++ serQuestions m.questions).length +
          (serRRs m.answers).length : Nat) : Int))
        m.authorities.length =
        some (m.authorities, (((hb ++ serQuestions m.questions ++
          serRRs m.answers).length + (serRRs m.authorities).length :
          Nat) : Int)) := by
      rw [show (((hb ++ serQuestions m.questions).length +
        (serRRs m.answers).length : Nat) : Int) =
        (((hb ++ serQuestions m.questions ++ serRRs m.answers).length :
          Nat) : Int) from by push_cast; simp; ring]
      rw [show bs = (hb ++ serQuestions m.questions ++ serRRs m.answers) ++
        serRRs m.authorities ++ serRRs m.additionals from hbs]
      exact parse_rr_append m.authorities _ _ (fun rr h => hrr rr (by
        simp [h]))
    rw [hr2, Option.some_bind]
    have hr3 : Message.parse_rr bs
        ((((hb ++ serQuestions m.questions ++ serRRs m.answers).length +
          (serRRs m.authorities).length : Nat) : Int))
        m.additionals.length =
        some (m.additionals, (((hb ++ serQuestions m.questions ++
          serRRs m.answers ++ serRRs m.authorities).length +
          (serRRs m.additionals).length : Nat) : Int)) := by
      rw [show (((hb ++ serQuestions m.questions ++ serRRs m.answers).length
        + (serRRs m.authorities).length : Nat) : Int) =
        (((hb ++ serQuestions m.questions ++ serRRs m.answers ++
          serRRs m.authorities).length : Nat) : Int) from by
        push_cast; simp; ring]
      rw [show bs = (hb ++ serQuestions m.questions ++ serRRs m.answers ++
        serRRs m.authorities) ++ serRRs m.additionals ++ [] from by
        rw [hbs]; simp]
      exact parse_rr_append m.additionals _ _ (fun rr h => hrr rr (by
        simp [h]))
    rw [hr3, Option.some_bind]
    rfl

/-! ## Facts about the handler -/

/-- Whatever `_forward` hands back to be relayed is exactly the raw
upstream reply; the query bytes go upstream verbatim. -/
theorem forward_spec (data reply : Bytes) :
    ∃ ops, forward data reply = ([data], ops, none) ∨
      forward data reply = ([data], ops, some reply) := by
  unfold forward
  cases Message.from_bytes reply with
  | none => exact ⟨[], Or.inl rfl⟩
  | some msg =>
    rcases hloop : forwardLoop msg msg.answers with ⟨ops, crashed⟩
    refine ⟨ops, ?_⟩
    cases crashed with
    | false => right; simp [hloop]
    | true => left; simp [hloop]

theorem pyIntToBytes_some (n : Int) (len : Nat) (b : Bytes)
    (h : pyIntToBytes n len = some b) : b = natToBytes len n.toNat := by
  unfold pyIntToBytes at h
  split_ifs at h
  exact ((Option.some.injEq _ _).mp h).symm

/-- Every header produced by `Header.from_bytes` is well-formed. -/
theorem ifByte_length (c : Prop) [Decidable c] :
    (if c then ([0x00] : Bytes) else [0x01]).length = 1 := by
  split <;> rfl

theorem ifByte_le (c : Prop) [Decidable c] :
    bytesToNat (if c then ([0x00] : Bytes) else [0x01]) ≤ 1 := by
  split <;> simp [bytesToNat_single]

theorem Header.from_bytes_specWF (d : Bytes) (h : Header)
    (hp : Header.from_bytes d = some h) : h.specWF := by
  unfold Header.from_bytes at hp
  simp only [Option.bind_eq_bind, Option.bind_eq_some] at hp
  obtain ⟨ID, hID, b2, hb2, b3, hb3, qd, hqd, an, han, ns, hns, ar, har,
    hinit⟩ := hp
  unfold Header.init at hinit
  simp only [Option.bind_eq_bind, Option.bind_eq_some] at hinit
  obtain ⟨idB, hidB, opB, hopB, aaB, haaB, tcB, htcB, zB, hzB, rcB, hrcB,
    qdB, hqdB, anB, hanB, nsB, hnsB, arB, harB, hpure⟩ := hinit
  rw [pyIntToBytes_some _ _ _ hidB] at hpure
  rw [pyIntToBytes_some _ _ _ hopB] at hpure
  rw [pyIntToBytes_some _ _ _ haaB] at hpure
  rw [pyIntToBytes_some _ _ _ htcB] at hpure
  rw [pyIntToBytes_some _ _ _ hzB] at hpure
  rw [pyIntToBytes_some _ _ _ hrcB] at hpure
  rw [pyIntToBytes_some _ _ _ hqdB] at hpure
  rw [pyIntToBytes_some _ _ _ hanB] at hpure
  rw [pyIntToBytes_some _ _ _ hnsB] at hpure
  rw [pyIntToBytes_some _ _ _ harB] at hpure
  have hh := (Option.some.injEq _ _).mp hpure
  subst hh
  have honebyte : ∀ v : Nat, natToBytes 1 v = [v % 256] := fun v => by
    simp [natToBytes]
  have hmod : ∀ v : Nat, bytesToNat (natToBytes 1 v) = v % 256 := fun v => by
    rw [honebyte, bytesToNat_single]
  constructor; · simp [natToBytes_length]
  constructor; · exact ifByte_length _
  constructor; · simp [natToBytes_length]
  constructor; · simp [natToBytes_length]
  constructor; · simp [natToBytes_length]
  constructor; · exact ifByte_length _
  constructor; · exact ifByte_length _
  constructor; · simp [natToBytes_length]
  constructor; · simp [natToBytes_length]
  constructor; · simp [natToBytes_length]
  constructor; · simp [natToBytes_length]
  constructor; · simp [natToBytes_length]
  constructor; · simp [natToBytes_length]
  constructor; · exact natToBytes_wf _ _
  constructor; · exact natToBytes_wf _ _
  constructor; · exact natToBytes_wf _ _
  constructor; · exact natToBytes_wf _ _
  constructor; · exact natToBytes_wf _ _
  constructor
  · exact ifByte_le _
  constructor
  · rw [hmod]
    have : b2 >>> 3 &&& 0x0F ≤ 15 := Nat.and_le_right
    have h2 : ((b2 >>> 3 &&& 0x0F : Nat) : Int).toNat = b2 >>> 3 &&& 0x0F :=
      Int.toNat_natCast _
    rw [h2]
    omega
  constructor
  · rw [hmod]
    have : b2 >>> 2 &&& 0x01 ≤ 1 := Nat.and_le_right
    rw [Int.toNat_natCast]
    omega
  constructor
  · rw [hmod]
    have : b2 >>> 1 &&& 0x01 ≤ 1 := Nat.and_le_right
    rw [Int.toNat_natCast]
    omega
  constructor
  · exact ifByte_le _
  constructor
  · exact ifByte_le _
  constructor
  · rw [hmod]
    have : b3 >>> 4 &&& 0x07 ≤ 7 := Nat.and_le_right
    rw [Int.toNat_natCast]
    omega
  · rw [hmod]
    have : b3 &&& 0x0F ≤ 15 := Nat.and_le_right
    rw [Int.toNat_natCast]
    omega

/-- The header of a parsed message comes from its first 12 bytes. -/
theorem Message.from_bytes_header (data : Bytes) (msg : Message)
    (hp : Message.from_bytes data = some msg) :
    Header.from_bytes (pySlice data 0 12) = some msg.header := by
  unfold Message.from_bytes at hp
  simp only [Option.bind_eq_bind, Option.bind_eq_some] at hp
  obtain ⟨h, hhd, qc, hqc, ac, hac, nc, hnc, arc, harc, hrest⟩ := hp
  rcases hpq : Message.parse_question data 12 qc with ⟨questions, n1⟩
  rw [hpq] at hrest
  simp only [Option.bind_eq_some] at hrest
  obtain ⟨⟨answers, n2⟩, ha2, hrest2⟩ := hrest
  simp only [Option.bind_eq_some] at hrest2
  obtain ⟨⟨auth, n3⟩, ha3, hrest3⟩ := hrest2
  simp only [Option.bind_eq_some] at hrest3
  obtain ⟨⟨add, n4⟩, ha4, hpure⟩ := hrest3
  have hmsg := (Option.some.injEq _ _).mp hpure
  rw [hhd, ← hmsg]

/-- The header the blocked path builds stays well-formed. -/
theorem Header.specWF_blocked (h : Header) (hw : h.specWF) :
    ({ h with
        RA := [0x01]
        QDCOUNT := [0x00, 0x00]
        ANCOUNT := [0x00, 0x00]
        QR := [0x01]
        RCODE := [0x03] } : Header).specWF := by
  obtain ⟨a1, a2, a3, a4, a5, a6, a7, a8, a9, a10, a11, a12, a13, w1, w2,
    w3, w4, w5, v1, v2, v3, v4, v5, v6, v7, v8⟩ := hw
  refine ⟨a1, rfl, a3, a4, a5, a6, rfl, a8, rfl, rfl, rfl, a12, a13, w1,
    ?_, ?_, w4, w5, ?_, v2, v3, v4, v5, ?_, v7, ?_⟩
  · exact bytesWF_pair 0 0 (by omega) (by omega)
  · exact bytesWF_pair 0 0 (by omega) (by omega)
  · show bytesToNat [0x01] ≤ 1
    rw [bytesToNat_single]
  · show bytesToNat [0x01] ≤ 1
    rw [bytesToNat_single]
  · show bytesToNat [0x03] < 16
    rw [bytesToNat_single]
    omega

/-- On the blocked path (sentinel cache entry) the handler sends exactly
one synthesized response: the parsed header's `ID`, flag bytes with
`QR = 1`, `RA = 1` and `RCODE = 3`, zero `QDCOUNT` and `ANCOUNT`, and the
incoming query's `NSCOUNT`/`ARCOUNT` bytes; nothing goes upstream and the
cache is untouched. -/
theorem handle_blocked (cache : Cache) (reply data : Bytes) (msg : Message)
    (q : Question) (name : DName)
    (hp : Message.from_bytes data = some msg)
    (hh : msg.questions.head? = some q)
    (ht : q.QTYPE = RRtypeA)
    (hn : q.get_QNAME = some name)
    (hc : cache.getA name = some sentinelAddr) :
    ∃ b2 b3,
      handle cache reply data =
        ⟨[], [msg.header.ID ++ [b2] ++ [b3] ++ [0x00, 0x00] ++
          [0x00, 0x00] ++ msg.header.NSCOUNT ++ msg.header.ARCOUNT], [],
          false⟩ ∧
      b2 >>> 7 &&& 0x01 = 1 ∧ b3 >>> 7 &&& 0x01 = 1 ∧ b3 &&& 0x0F = 3 ∧
      b3 >>> 4 &&& 0x07 = 0 ∧ b2 < 256 ∧ b3 < 256 := by
  have hw : msg.header.specWF :=
    Header.from_bytes_specWF _ _ (Message.from_bytes_header data msg hp)
  have hw' := Header.specWF_blocked msg.header hw
  obtain ⟨a1, a2, a3, a4, a5, a6, a7, a8, a9, a10, a11, a12, a13, w1, w2,
    w3, w4, w5, v1, v2, v3, v4, v5, v6, v7, v8⟩ := hw
  obtain ⟨qr1, hqr1⟩ := List.length_eq_one.mp a2
  obtain ⟨op1, hop1⟩ := List.length_eq_one.mp a3
  obtain ⟨aa1, haa1⟩ := List.length_eq_one.mp a4
  obtain ⟨tc1, htc1⟩ := List.length_eq_one.mp a5
  obtain ⟨rd1, hrd1⟩ := List.length_eq_one.mp a6
  have hgb := Header.get_bytes_eq _ hw'
  have hby2 := flagByte2_spec 1 (by omega) (bytesToNat msg.header.Opcode)
    v2 (bytesToNat msg.header.AA) (by omega) (bytesToNat msg.header.TC)
    (by omega) (bytesToNat msg.header.RD) (by omega)
  have hby3 := flagByte3_spec 1 (by omega) 3 (by omega)
  refine ⟨1 <<< 7 &&& 0x80 ||| bytesToNat msg.header.Opcode <<< 3 &&& 0x78
    ||| bytesToNat msg.header.AA <<< 2 &&& 0x04 |||
    bytesToNat msg.header.TC <<< 1 &&& 0x02 ||| bytesToNat msg.header.RD,
    1 <<< 7 &&& 0x80 ||| 3, ?_, hby2.1, hby3.1, hby3.2.2.1, hby3.2.1,
    hby2.2.2.2.2.2, hby3.2.2.2⟩
  have hgb2 : Message.get_bytes ⟨({ msg.header with
      RA := [0x01]
      QDCOUNT := [0x00, 0x00]
      ANCOUNT := [0x00, 0x00]
      QR := [0x01]
      RCODE := [0x03] } : Header), [], [], [], []⟩ =
      some (msg.header.ID ++
        [1 <<< 7 &&& 0x80 ||| bytesToNat msg.header.Opcode <<< 3 &&& 0x78
          ||| bytesToNat msg.header.AA <<< 2 &&& 0x04 |||
          bytesToNat msg.header.TC <<< 1 &&& 0x02 |||
          bytesToNat msg.header.RD] ++
        [1 <<< 7 &&& 0x80 ||| 3] ++ [0x00, 0x00] ++ [0x00, 0x00] ++
        msg.header.NSCOUNT ++ msg.header.ARCOUNT) := by
    unfold Message.get_bytes
    rw [hgb, Option.bind_eq_bind, Option.some_bind]
    simp [bytesToNat_single, bytesToNat_pair]
  unfold handle
  simp only [hp, hh, ht, hn, hc]
  simp only [if_true]
  rw [if_neg (show ¬(sentinelAddr ≠ sentinelAddr) from by simp)]
  rw [hgb2]

/-! ## Concrete test fixtures -/

/-- QNAME bytes of the name `a.b` (labels `a` and `b`). -/
def qnameAB : Bytes := [1, 97, 1, 98, 0]

/-- The cache key `a.b` as decoded by `get_QNAME`. -/
def nameAB : DName := [[97], [98]]

/-- A query for `a.b`, type A, class IN (ID 1, RD set). -/
def queryAB : Bytes :=
  [0x00, 0x01, 0x01, 0x00, 0x00, 0x01, 0x00, 0x00, 0x00, 0x00, 0x00,
    0x00] ++ qnameAB ++ [0x00, 0x01] ++ [0x00, 0x01]

/-- A cache holding a non-sentinel A record `1.2.3.4` for `a.b`,
persistent. -/
def cacheHitAB : Cache :=
  ⟨fun n => if n = nameAB then some [1, 2, 3, 4] else none, fun _ => -1⟩

/-- A cache holding the blocking sentinel `0.0.0.0` for `a.b`. -/
def cacheBlockAB : Cache :=
  ⟨fun n => if n = nameAB then some sentinelAddr else none, fun _ => -1⟩

/-- The empty cache. -/
def cacheEmpty : Cache := ⟨fun _ => none, fun _ => -1⟩

/-- An upstream reply for `a.b`: one A answer, compressed name pointer,
TTL = 0, RDATA `1.2.3.4`. -/
def replyTTL0 : Bytes :=
  [0x00, 0x01, 0x81, 0x80, 0x00, 0x01, 0x00, 0x01, 0x00, 0x00, 0x00,
    0x00] ++ qnameAB ++ [0x00, 0x01] ++ [0x00, 0x01] ++
  [0xC0, 0x0C, 0x00, 0x01, 0x00, 0x01, 0x00, 0x00, 0x00, 0x00, 0x00,
    0x04, 1, 2, 3, 4]

/-! ## C2 -/

/-- C2: the cache-hit path never sends the synthesized answer: building
the Answer RR passes the 2-byte constants `RR_type.A`/`RR_class.IN` where
`ResourceRecord.__init__` expects `int`s and calls `.to_bytes`, raising
`AttributeError`; with a non-sentinel cached address for `a.b`, the
handler crashes with nothing sent, nothing forwarded and no cache
write — refuting the claimed synthesized response. -/
theorem claim2_cache_hit_crash :
    cacheHitAB.getA nameAB = some [1, 2, 3, 4] ∧
    [1, 2, 3, 4] ≠ sentinelAddr ∧
    handle cacheHitAB [] queryAB =
      ⟨[], [], [], true⟩ := by
  refine ⟨by decide, by decide, by decide⟩

/-! ## C4 -/

/-- C4: learn-on-forward caches an A answer with TTL = 0: the guard
compares the 4-byte `TTL` field against the 2-byte constant
`b'\x00\x00'`, which never matches, so the zero-TTL answer of
`replyTTL0` is written (`put` then `set_ttl 0`) although the claim says a
TTL-0 answer is never cached. -/
theorem claim4_ttl_zero_cached :
    (Message.from_bytes replyTTL0).map
      (fun m => m.answers.map ResourceRecord.TTL) =
      some [[0x00, 0x00, 0x00, 0x00]] ∧
    handle cacheEmpty replyTTL0 queryAB =
      ⟨[queryAB], [replyTTL0],
        [CacheOp.put nameAB [1, 2, 3, 4], CacheOp.setTTL nameAB 0],
        false⟩ := by
  refine ⟨by decide, by decide⟩

/-! ## C5 -/

/-- A truncated datagram: the header announces `QDCOUNT = 2` but only one
question is present. -/
def truncatedQD2 : Bytes :=
  [0x00, 0x01, 0x01, 0x00, 0x00, 0x02, 0x00, 0x00, 0x00, 0x00, 0x00,
    0x00] ++ qnameAB ++ [0x00, 0x01] ++ [0x00, 0x01]

/-- C5: a structurally invalid (truncated) datagram is not dropped: with
`QDCOUNT = 2` and a single question present the parser fabricates an
empty second question from out-of-range slices, the handler proceeds on
the first question and sends a blocked response — refuting the claimed
silence on malformed input. -/
theorem claim5_truncated_answered :
    bytesToNat (pySlice truncatedQD2 4 6) = 2 ∧
    truncatedQD2.length = 21 ∧
    handle cacheBlockAB [] truncatedQD2 =
      ⟨[], [[0x00, 0x01, 0x81, 0x83, 0x00, 0x00, 0x00, 0x00, 0x00, 0x00,
        0x00, 0x00]], [], false⟩ := by
  refine ⟨by decide, by decide, by decide⟩

/-! ## C6 -/

/-- C6: `Question.get_QNAME` does not follow compression pointers: on a
QNAME that is a bare 2-byte pointer (top two bits `11`) it reads `0xC0`
as a label length, runs off the end of the buffer and raises
`IndexError`, instead of assembling the pointed-to labels. -/
theorem claim6_get_QNAME_pointer :
    0xC0 >>> 6 &&& 0b0011 = 0b0011 ∧
    Question.get_QNAME ⟨[0xC0, 0x0C], RRtypeA, RRclassIN⟩ = none := by
  refine ⟨by decide, by decide⟩

/-! ## C1 -/

/-- A message that is valid in the claim's sense (counts match, `Z = 0`,
names are data-model label runs or pointers) whose question name is a
compression pointer. -/
def msgPtrQ : Message :=
  ⟨⟨[0x00, 0x01], [0x00], [0x00], [0x00], [0x00], [0x01], [0x00], [0x00],
    [0x00], [0x00, 0x01], [0x00, 0x01], [0x00, 0x00], [0x00, 0x00]⟩,
   [⟨[0xC0, 0x0C], [0x00, 0x01], [0x00, 0x01]⟩],
   [⟨[0xC0, 0x0C], [0x00, 0x01], [0x00, 0x01], [0x00, 0x00, 0x00, 0x3C],
     [0x00, 0x04], [1, 2, 3, 4]⟩], [], []⟩

/-- C1 fails as stated: `msgPtrQ` is a valid message in the claim's sense
(header counts equal section lengths, `Z = 0`, every name a label run or
compression pointer), yet parsing its serialization does not give the
message back — the question parser scans for a zero byte instead of
recognising the pointer, misplacing every following boundary. -/
theorem claim1_pointer_name_counterexample :
    Message.claimValid msgPtrQ ∧
    (Message.get_bytes msgPtrQ).bind Message.from_bytes ≠ some msgPtrQ := by
  refine ⟨by decide, by decide⟩

/-- C1 amended: the round trip `parse (serialize M) = M` holds for every
message whose question names are zero-terminated runs without interior
zero bytes (no compression pointers), whose RR names are such runs
starting below `0xC0` or bare 2-byte pointers, and whose RRs carry a
nonzero `RDLENGTH` equal to the `RDATA` length — besides the claim's own
conditions (counts equal to section lengths, `Z = 0`, well-formed field
widths). -/
theorem claim1_wire_roundtrip (m : Message) (hv : m.parseValid) :
    (Message.get_bytes m).bind Message.from_bytes = some m := by
  obtain ⟨bs, hbs, hfb⟩ := Message.from_bytes_get_bytes m hv
  rw [hbs, Option.some_bind, hfb]

/-- Witness for the amended C1 round trip at a concrete valid message. -/
theorem claim1_wire_roundtrip_witness :
    Message.parseValid
      ⟨⟨[0x00, 0x01], [0x01], [0x00], [0x00], [0x00], [0x01], [0x01],
        [0x00], [0x00], [0x00, 0x01], [0x00, 0x01], [0x00, 0x00],
        [0x00, 0x00]⟩,
       [⟨qnameAB, [0x00, 0x01], [0x00, 0x01]⟩],
       [⟨[0xC0, 0x0C], [0x00, 0x01], [0x00, 0x01], [0x00, 0x00, 0x01, 0x2C],
         [0x00, 0x04], [1, 2, 3, 4]⟩], [], []⟩ ∧
    (Message.get_bytes
      ⟨⟨[0x00, 0x01], [0x01], [0x00], [0x00], [0x00], [0x01], [0x01],
        [0x00], [0x00], [0x00, 0x01], [0x00, 0x01], [0x00, 0x00],
        [0x00, 0x00]⟩,
       [⟨qnameAB, [0x00, 0x01], [0x00, 0x01]⟩],
       [⟨[0xC0, 0x0C], [0x00, 0x01], [0x00, 0x01], [0x00, 0x00, 0x01, 0x2C],
         [0x00, 0x04], [1, 2, 3, 4]⟩], [], []⟩).bind Message.from_bytes =
      some
      ⟨⟨[0x00, 0x01], [0x01], [0x00], [0x00], [0x00], [0x01], [0x01],
        [0x00], [0x00], [0x00, 0x01], [0x00, 0x01], [0x00, 0x00],
        [0x00, 0x00]⟩,
       [⟨qnameAB, [0x00, 0x01], [0x00, 0x01]⟩],
       [⟨[0xC0, 0x0C], [0x00, 0x01], [0x00, 0x01], [0x00, 0x00, 0x01, 0x2C],
         [0x00, 0x04], [1, 2, 3, 4]⟩], [], []⟩ :=
  ⟨by decide, claim1_wire_roundtrip _ (by decide)⟩

/-! ## C3 -/

/-- C3: on a sentinel (`0.0.0.0`) cache entry for the queried name, the
handler sends one synthesized response carrying the original transaction
ID, `QR = 1`, `RA = 1`, `QDCOUNT = 0`, `ANCOUNT = 0` and `RCODE = 3`,
forwards nothing upstream and writes nothing to the cache. -/
theorem claim3_blocked_response (cache : Cache) (reply data : Bytes)
    (msg : Message) (q : Question) (name : DName)
    (hp : Message.from_bytes data = some msg)
    (hh : msg.questions.head? = some q)
    (ht : q.QTYPE = RRtypeA)
    (hn : q.get_QNAME = some name)
    (hc : cache.getA name = some sentinelAddr) :
    ∃ b2 b3,
      handle cache reply data =
        ⟨[], [msg.header.ID ++ [b2] ++ [b3] ++ [0x00, 0x00] ++
          [0x00, 0x00] ++ msg.header.NSCOUNT ++ msg.header.ARCOUNT], [],
          false⟩ ∧
      b2 >>> 7 &&& 0x01 = 1 ∧ b3 >>> 7 &&& 0x01 = 1 ∧
      b3 &&& 0x0F = 3 := by
  obtain ⟨b2, b3, htr, hqr, hra, hrc, -, -, -⟩ :=
    handle_blocked cache reply data msg q name hp hh ht hn hc
  exact ⟨b2, b3, htr, hqr, hra, hrc⟩

/-- The parsed form of `queryAB`. -/
def msgQueryAB : Message :=
  ⟨⟨[0x00, 0x01], [0x00], [0x00], [0x00], [0x00], [0x01], [0x00], [0x00],
    [0x00], [0x00, 0x01], [0x00, 0x00], [0x00, 0x00], [0x00, 0x00]⟩,
   [⟨qnameAB, [0x00, 0x01], [0x00, 0x01]⟩], [], [], []⟩

/-- Witness for C3 at a concrete blocked query. -/
theorem claim3_blocked_response_witness :
    ∃ b2 b3,
      handle cacheBlockAB [] queryAB =
        ⟨[], [msgQueryAB.header.ID ++ [b2] ++ [b3] ++ [0x00, 0x00] ++
          [0x00, 0x00] ++ msgQueryAB.header.NSCOUNT ++
          msgQueryAB.header.ARCOUNT], [], false⟩ ∧
      b2 >>> 7 &&& 0x01 = 1 ∧ b3 >>> 7 &&& 0x01 = 1 ∧
      b3 &&& 0x0F = 3 :=
  claim3_blocked_response cacheBlockAB [] queryAB msgQueryAB
    ⟨qnameAB, [0x00, 0x01], [0x00, 0x01]⟩ nameAB (by decide) (by decide)
    (by decide) (by decide) (by decide)

/-! ## C7 -/

/-- C7: on the forward path (non-A query type, or cache miss on an A
query) the original datagram goes upstream byte-identical, and whatever
is sent back to the client is exactly the raw upstream reply — it is sent
whenever processing the reply does not raise, and nothing else is ever
sent. -/
theorem claim7_forward_verbatim (cache : Cache) (reply data : Bytes)
    (msg : Message) (q : Question) (name : DName)
    (hp : Message.from_bytes data = some msg)
    (hh : msg.questions.head? = some q)
    (hn : q.get_QNAME = some name)
    (hmiss : q.QTYPE ≠ RRtypeA ∨ cache.getA name = none) :
    (handle cache reply data).sentUpstream = [data] ∧
    (∀ r ∈ (handle cache reply data).sentClient, r = reply) ∧
    ((handle cache reply data).crashed = false →
      (handle cache reply data).sentClient = [reply]) := by
  unfold handle
  simp only [hp, hh, hn]
  by_cases hqt : q.QTYPE = RRtypeA
  · have hcm : cache.getA name = none := by
      rcases hmiss with h | h
      · exact absurd hqt h
      · exact h
    rw [if_pos hqt, hcm]
    rcases forward_spec data reply with ⟨ops, hf | hf⟩ <;> rw [hf] <;> simp
  · rw [if_neg hqt]
    rcases forward_spec data reply with ⟨ops, hf | hf⟩ <;> rw [hf] <;> simp

/-- Witness for C7: a cache-miss A query forwarded against a concrete
reply. -/
theorem claim7_forward_verbatim_witness :
    (handle cacheEmpty replyTTL0 queryAB).sentUpstream = [queryAB] ∧
    (∀ r ∈ (handle cacheEmpty replyTTL0 queryAB).sentClient,
      r = replyTTL0) ∧
    ((handle cacheEmpty replyTTL0 queryAB).crashed = false →
      (handle cacheEmpty replyTTL0 queryAB).sentClient = [replyTTL0]) :=
  claim7_forward_verbatim cacheEmpty replyTTL0 queryAB msgQueryAB
    ⟨qnameAB, [0x00, 0x01], [0x00, 0x01]⟩ nameAB (by decide) (by decide)
    (by decide) (Or.inr (by decide))

/-! ## C8 -/

/-- A query like `queryAB` but with `ARCOUNT = 1` and one (EDNS-style,
empty-RDATA) additional record. -/
def queryAR1 : Bytes :=
  [0x00, 0x01, 0x01, 0x00, 0x00, 0x01, 0x00, 0x00, 0x00, 0x00, 0x00,
    0x01] ++ qnameAB ++ [0x00, 0x01] ++ [0x00, 0x01] ++
  [0x00, 0x00, 0x29, 0x00, 0x10, 0x00, 0x00, 0x00, 0x00, 0x00, 0x00]

/-- C8 fails as stated: for a blocked query carrying `ARCOUNT = 1`, the
synthesized response keeps the query's `ARCOUNT` bytes `[0, 1]` yet
serializes no resource record at all (the response is exactly the 12
header bytes), so an emitted count differs from its section length. -/
theorem claim8_counts_counterexample :
    handle cacheBlockAB [] queryAR1 =
      ⟨[], [[0x00, 0x01, 0x81, 0x83, 0x00, 0x00, 0x00, 0x00, 0x00, 0x00,
        0x00, 0x01]], [], false⟩ ∧
    pySlice [0x00, 0x01, 0x81, 0x83, 0x00, 0x00, 0x00, 0x00, 0x00, 0x00,
      0x00, 0x01] 10 12 = [0x00, 0x01] ∧
    ([0x00, 0x01, 0x81, 0x83, 0x00, 0x00, 0x00, 0x00, 0x00, 0x00, 0x00,
      0x01] : Bytes).length = 12 := by
  refine ⟨by decide, by decide, by decide⟩

/-- C8 amended: synthesized (blocked) responses rebuild `QDCOUNT` and
`ANCOUNT` to match their emptied sections, but inherit `NSCOUNT` and
`ARCOUNT` from the incoming query; the count/section invariant therefore
holds exactly when the query's `NSCOUNT` and `ARCOUNT` are zero, in which
case all four emitted counts are zero and the response carries no section
bytes.  (The cache-hit path emits nothing at all; see C2.) -/
theorem claim8_counts_amended (cache : Cache) (reply data : Bytes)
    (msg : Message) (q : Question) (name : DName)
    (hp : Message.from_bytes data = some msg)
    (hh : msg.questions.head? = some q)
    (ht : q.QTYPE = RRtypeA)
    (hn : q.get_QNAME = some name)
    (hc : cache.getA name = some sentinelAddr)
    (hns0 : msg.header.NSCOUNT = [0x00, 0x00])
    (har0 : msg.header.ARCOUNT = [0x00, 0x00]) :
    ∃ resp,
      handle cache reply data = ⟨[], [resp], [], false⟩ ∧
      resp.length = 12 ∧
      pySlice resp 4 6 = [0x00, 0x00] ∧ pySlice resp 6 8 = [0x00, 0x00] ∧
      pySlice resp 8 10 = [0x00, 0x00] ∧
      pySlice resp 10 12 = [0x00, 0x00] := by
  obtain ⟨b2, b3, htr, -, -, -, -, -, -⟩ :=
    handle_blocked cache reply data msg q name hp hh ht hn hc
  have hw : msg.header.specWF :=
    Header.from_bytes_specWF _ _ (Message.from_bytes_header data msg hp)
  obtain ⟨i0, i1, hid⟩ := List.length_eq_two.mp hw.1
  rw [hid, hns0, har0] at htr
  refine ⟨[i0, i1, b2, b3, 0x00, 0x00, 0x00, 0x00, 0x00, 0x00, 0x00,
    0x00], ?_, by simp, rfl, rfl, rfl, rfl⟩
  rw [htr]
  simp

/-- Witness for the amended C8 at a concrete blocked query with zero
`NSCOUNT`/`ARCOUNT`. -/
theorem claim8_counts_amended_witness :
    ∃ resp,
      handle cacheBlockAB [] queryAB = ⟨[], [resp], [], false⟩ ∧
      resp.length = 12 ∧
      pySlice resp 4 6 = [0x00, 0x00] ∧ pySlice resp 6 8 = [0x00, 0x00] ∧
      pySlice resp 8 10 = [0x00, 0x00] ∧
      pySlice resp 10 12 = [0x00, 0x00] :=
  claim8_counts_amended cacheBlockAB [] queryAB msgQueryAB
    ⟨qnameAB, [0x00, 0x01], [0x00, 0x01]⟩ nameAB (by decide) (by decide)
    (by decide) (by decide) (by decide) (by decide) (by decide)

/-! ## C9 -/

/-- A message whose single question name is a bare compression pointer,
followed by `QTYPE`/`QCLASS`. -/
def bufPtrQ : Bytes :=
  [0x00, 0x01, 0x01, 0x00, 0x00, 0x01, 0x00, 0x00, 0x00, 0x00, 0x00,
    0x00] ++ [0xC0, 0x0C] ++ [0x00, 0x01] ++ [0x00, 0x01]

/-- C9 fails as stated: at offset 12 of `bufPtrQ` the name is a pointer,
so by the claimed rule it occupies exactly 2 bytes and the question ends
at 18; the question parser never tests for pointers and scans to the
first zero byte instead, placing the next index at 19. -/
theorem claim9_name_len_counterexample :
    pyGet bufPtrQ 12 = some 0xC0 ∧
    specNameLen bufPtrQ 12 = some 2 ∧
    Message.questionNextStart bufPtrQ 12 = 19 ∧
    Message.questionNextStart bufPtrQ 12 ≠ 12 + 2 + 4 := by
  refine ⟨by decide, by decide, by decide, by decide⟩

/-- C9 amended: the claimed name-length rule (2 bytes on a pointer byte,
otherwise scan to the zero terminator) is exactly what the RR parser
computes, but the Question parser applies only the zero-byte scan,
never the pointer test. -/
theorem claim9_name_len_amended :
    (∀ (message : Bytes) (start b L : Nat),
      pyGet message (start : Int) = some b →
      specNameLen message start = some L →
      Message.rrTypeStart message (start : Int) b =
        ((start + L : Nat) : Int)) ∧
    (∀ (message : Bytes) (start k : Nat),
      (message.drop start).findIdx? (fun x => x = 0) = some k →
      Message.questionNextStart message (start : Int) =
        ((start + k + 5 : Nat) : Int)) := by
  constructor
  · intro message start b L hg hs
    rw [pyGet_nat] at hg
    unfold specNameLen at hs
    rw [hg] at hs
    replace hs :
        (if b >>> 6 &&& 0b0011 = 0b0011 then some 2
          else
            match (message.drop start).findIdx? (fun x => x = 0) with
            | some k => some (k + 1)
            | none => none) = some L := hs
    unfold Message.rrTypeStart
    by_cases hptr : b >>> 6 &&& 0b0011 = 0b0011
    · rw [if_pos hptr]
      rw [if_pos hptr] at hs
      have : L = 2 := by
        have := (Option.some.injEq _ _).mp hs
        omega
      rw [this]
      push_cast
      ring
    · rw [if_neg hptr]
      rw [if_neg hptr] at hs
      cases hfi : (message.drop start).findIdx? (fun x => x = 0) with
      | none => rw [hfi] at hs; simp at hs
      | some k =>
        rw [hfi] at hs
        have hL : L = k + 1 := by
          have := (Option.some.injEq _ _).mp hs
          omega
        rw [hL]
        unfold pyFind0
        rw [pySliceFrom_nat, hfi]
        push_cast
        ring
  · intro message start k hfi
    unfold Message.questionNextStart pyFind0
    rw [pySliceFrom_nat, hfi]
    push_cast
    ring

/-- Witness for the amended C9: the RR rule at a pointer byte and at a
label run, and the question scan. -/
theorem claim9_name_len_amended_witness :
    Message.rrTypeStart [0xC0, 0x0C, 0x00] 0 0xC0 = ((0 + 2 : Nat) : Int) ∧
    Message.rrTypeStart [1, 97, 0] 0 1 = ((0 + 3 : Nat) : Int) ∧
    Message.questionNextStart [1, 97, 0, 0, 1, 0, 1] 0 =
      ((0 + 2 + 5 : Nat) : Int) :=
  ⟨claim9_name_len_amended.1 [0xC0, 0x0C, 0x00] 0 0xC0 2 (by decide)
      (by decide),
   claim9_name_len_amended.1 [1, 97, 0] 0 1 3 (by decide) (by decide),
   claim9_name_len_amended.2 [1, 97, 0, 0, 1, 0, 1] 0 2 (by decide)⟩

/-! ## C10 -/

/-- A well-formed header carrying a nonzero reserved field `Z = 7`. -/
def hdrZ7 : Header :=
  { ID := [0x00, 0x01]
    QR := [0x01]
    Opcode := [0x00]
    AA := [0x00]
    TC := [0x00]
    RD := [0x01]
    RA := [0x01]
    Z := [0x07]
    RCODE := [0x03]
    QDCOUNT := [0x00, 0x00]
    ANCOUNT := [0x00, 0x00]
    NSCOUNT := [0x00, 0x00]
    ARCOUNT := [0x00, 0x00] }

/-- C10 holds: for every well-formed header, `get_bytes` emits the second
flag byte with its three reserved bits (bits 4-6) zero — the mask `0x07`
applied to `Z << 4` erases the shifted value — and the serialized output
does not depend on the stored `Z` at all. -/
theorem claim10_z_masked (h : Header) (hw : h.specWF) :
    (∃ bs, h.get_bytes = some bs ∧ bs.length = 12 ∧
      ∃ b3, bs[3]? = some b3 ∧ b3 >>> 4 &&& 0x07 = 0) ∧
    (∀ z', z' < 8 →
      Header.get_bytes
        ({ h with Z := [z'] } : Header) = h.get_bytes) := by
  obtain ⟨hID, hQR, hOp, hAA, hTC, hRD, hRA, hZ, hRC, hQD, hAN, hNS, hAR,
    wID, wQD, wAN, wNS, wAR, vQR, vOp, vAA, vTC, vRD, vRA, vZ, vRC⟩ := hw
  have hw' : h.specWF :=
    ⟨hID, hQR, hOp, hAA, hTC, hRD, hRA, hZ, hRC, hQD, hAN, hNS, hAR, wID,
      wQD, wAN, wNS, wAR, vQR, vOp, vAA, vTC, vRD, vRA, vZ, vRC⟩
  constructor
  · obtain ⟨i0, i1, hid⟩ := List.length_eq_two.mp hID
    obtain ⟨q0, q1, hq⟩ := List.length_eq_two.mp hQD
    obtain ⟨n0, n1, hn⟩ := List.length_eq_two.mp hAN
    obtain ⟨s0, s1, hs⟩ := List.length_eq_two.mp hNS
    obtain ⟨r0, r1, hr⟩ := List.length_eq_two.mp hAR
    refine ⟨_, Header.get_bytes_eq h hw', ?_, ?_⟩
    · rw [hid, hq, hn, hs, hr]
      rfl
    · refine ⟨_, ?_, (flagByte3_spec (bytesToNat h.RA) (by omega)
        (bytesToNat h.RCODE) vRC).2.1⟩
      rw [hid, hq, hn, hs, hr]
      rfl
  · intro z' hz'
    have hwz : ({ h with Z := [z'] } : Header).specWF :=
      ⟨hID, hQR, hOp, hAA, hTC, hRD, hRA, rfl, hRC, hQD, hAN, hNS, hAR,
        wID, wQD, wAN, wNS, wAR, vQR, vOp, vAA, vTC, vRD, vRA,
        (by simpa [bytesToNat] using hz'), vRC⟩
    rw [Header.get_bytes_eq _ hwz, Header.get_bytes_eq h hw']

/-- Witness for C10 at a concrete header with stored `Z = 7`. -/
theorem claim10_z_masked_witness :
    (∃ bs, hdrZ7.get_bytes = some bs ∧ bs.length = 12 ∧
      ∃ b3, bs[3]? = some b3 ∧ b3 >>> 4 &&& 0x07 = 0) ∧
    (∀ z', z' < 8 →
      Header.get_bytes
        ({ hdrZ7 with Z := [z'] } : Header) = hdrZ7.get_bytes) :=
  claim10_z_masked hdrZ7 (by decide)
